import Mathlib

/-!
# Verification of the claude-code-router Antigravity transformation core

Shallow embedding of the router's transformation core, translated from the
repository sources:

* the Antigravity transformer plugin (credential handling, cleanParameters,
  transformRequestIn, transformJsonResponse, transformStreamResponse,
  transformResponseOut dispatch);
* the gemini-interceptor plugin in its two variants (library-based with
  interactive login fallback, and pure-API with null fallback);
* the custom Antigravity router (web-search detection and model fallback).

JavaScript values are modelled by an explicit JSON tree type with JS
truthiness; JS objects are modelled as entry lists in insertion order
(JS objects cannot hold duplicate keys, so entry lists of distinct keys
are the image of the embedding).  JSON null values are not modelled: the
source crashes on a null under a properties/items key (Object.keys(null)
throws), and no claim involves null leaves.
-/

namespace CCR

/-- JSON values as the transformer manipulates them (null-free, see header). -/
inductive Json where
  | str (s : String)
  | num (n : Int)
  | bool (b : Bool)
  | arr (elems : List Json)
  | obj (entries : List (String × Json))

instance : Inhabited Json := ⟨.obj []⟩

mutual

/-- Boolean equality on JSON values. -/
def beqJson : Json → Json → Bool
  | .str a, .str b => a == b
  | .num a, .num b => a == b
  | .bool a, .bool b => a == b
  | .arr a, .arr b => beqJsonList a b
  | .obj a, .obj b => beqJsonEntries a b
  | _, _ => false

/-- Boolean equality on JSON arrays. -/
def beqJsonList : List Json → List Json → Bool
  | [], [] => true
  | x :: xs, y :: ys => beqJson x y && beqJsonList xs ys
  | _, _ => false

/-- Boolean equality on JSON object entry lists. -/
def beqJsonEntries : List (String × Json) → List (String × Json) → Bool
  | [], [] => true
  | (k, v) :: xs, (k', v') :: ys => k == k' && beqJson v v' && beqJsonEntries xs ys
  | _, _ => false

end

mutual

theorem beqJson_iff : ∀ a b, beqJson a b = true ↔ a = b
  | .str _, b => by cases b <;> simp [beqJson]
  | .num _, b => by cases b <;> simp [beqJson]
  | .bool _, b => by cases b <;> simp [beqJson]
  | .arr xs, b => by cases b <;> simp [beqJson, beqJsonList_iff xs]
  | .obj kvs, b => by cases b <;> simp [beqJson, beqJsonEntries_iff kvs]

theorem beqJsonList_iff : ∀ xs ys, beqJsonList xs ys = true ↔ xs = ys
  | [], ys => by cases ys <;> simp [beqJsonList]
  | x :: xs, ys => by
      cases ys <;> simp [beqJsonList, beqJson_iff x, beqJsonList_iff xs]

theorem beqJsonEntries_iff : ∀ xs ys, beqJsonEntries xs ys = true ↔ xs = ys
  | [], ys => by cases ys <;> simp [beqJsonEntries]
  | (k, v) :: xs, ys => by
      cases ys with
      | nil => simp [beqJsonEntries]
      | cons y ys =>
          cases y with
          | mk k' v' =>
              simp [beqJsonEntries, beqJson_iff v, beqJsonEntries_iff xs, and_assoc]

end

instance : DecidableEq Json := fun a b => decidable_of_iff _ (beqJson_iff a b)

/-- JS truthiness of a JSON value: false, 0 and the empty string are falsy;
arrays and objects (even empty ones) are truthy. -/
def jsTruthy : Json → Bool
  | .str s => s ≠ ""
  | .num n => n ≠ 0
  | .bool b => b
  | .arr _ => true
  | .obj _ => true

/-- JS truthiness of a possibly-absent value (undefined is falsy). -/
def jsTruthyOpt : Option Json → Bool
  | none => false
  | some j => jsTruthy j

/-- `typeof v === 'object'` for non-null values: arrays and objects. -/
def isObjLike : Json → Bool
  | .arr _ => true
  | .obj _ => true
  | _ => false

/-- `Object.keys(v).length`: entry count for objects, element count for
arrays, character count for strings (string indices), 0 for primitives. -/
def jsKeysLen : Json → Nat
  | .obj kvs => kvs.length
  | .arr xs => xs.length
  | .str s => s.length
  | _ => 0

/-- First value bound to a key in an object entry list (JS property read). -/
def lookupKey (k : String) : List (String × Json) → Option Json
  | [] => none
  | (k', v) :: rest => if k' = k then some v else lookupKey k rest

/-- The keys `cleanParameters` strips ("unsupported fields for Gemini/Vertex"). -/
def denyList : List String :=
  ["$schema", "$id", "$ref", "$defs", "definitions", "$comment", "examples",
   "default", "additionalProperties", "minimum", "maximum", "minLength",
   "maxLength", "minItems", "maxItems", "uniqueItems", "pattern", "format",
   "nullable", "oneOf", "anyOf", "allOf", "not"]

/-- The final fix-up of cleanParameters: if the cleaned object has a truthy
`required` but no truthy `properties`, the `required` key is deleted. -/
def requiredFixup (l : List (String × Json)) : List (String × Json) :=
  if jsTruthyOpt (lookupKey "required" l) ∧ ¬ jsTruthyOpt (lookupKey "properties" l) then
    l.filter (fun kv => kv.1 ≠ "required")
  else l

mutual

/-- The Antigravity transformer's cleanParameters: strips deny-listed keys,
drops empty required arrays and empty properties objects, simplifies items
schemas that clean to an empty object, and deletes a dangling required. -/
def cleanParameters : Json → Json
  | .arr xs => .arr (cleanParametersList xs)
  | .obj kvs => .obj (requiredFixup (cleanEntries kvs))
  | j => j

/-- cleanParameters mapped over a JSON array (params.map(cleanParameters)). -/
def cleanParametersList : List Json → List Json
  | [] => []
  | x :: xs => cleanParameters x :: cleanParametersList xs

/-- The entry loop of cleanParameters, in insertion order. -/
def cleanEntries : List (String × Json) → List (String × Json)
  | [] => []
  | (k, v) :: rest =>
    if k ∈ denyList then cleanEntries rest
    else if k = "required" ∧ v = .arr [] then cleanEntries rest
    else if k = "properties" ∧ isObjLike v ∧ jsKeysLen v = 0 then cleanEntries rest
    else if k = "items" ∧ isObjLike v then
      let ci := cleanParameters v
      if jsKeysLen ci = 0 then ("items", .obj [("type", .str "string")]) :: cleanEntries rest
      else ("items", ci) :: cleanEntries rest
    else (k, cleanParameters v) :: cleanEntries rest

end

/-! ## Structural observations about JSON trees -/

mutual

/-- Does key k occur anywhere (at any depth) in a JSON value? -/
def occursKey (k : String) : Json → Bool
  | .arr xs => occursKeyList k xs
  | .obj kvs => occursKeyEntries k kvs
  | _ => false

/-- occursKey over a JSON array. -/
def occursKeyList (k : String) : List Json → Bool
  | [] => false
  | x :: xs => occursKey k x || occursKeyList k xs

/-- occursKey over object entries (the keys themselves and their values). -/
def occursKeyEntries (k : String) : List (String × Json) → Bool
  | [] => false
  | (k', v) :: rest => k' == k || occursKey k v || occursKeyEntries k rest

end

mutual

/-- Does every object node of a JSON value satisfy the local predicate p? -/
def allObjs (p : List (String × Json) → Bool) : Json → Bool
  | .arr xs => allObjsList p xs
  | .obj kvs => p kvs && allObjsEntries p kvs
  | _ => true

/-- allObjs over a JSON array. -/
def allObjsList (p : List (String × Json) → Bool) : List Json → Bool
  | [] => true
  | x :: xs => allObjs p x && allObjsList p xs

/-- allObjs over the values of object entries. -/
def allObjsEntries (p : List (String × Json) → Bool) : List (String × Json) → Bool
  | [] => true
  | (_, v) :: rest => allObjs p v && allObjsEntries p rest

end

/-- An object entry a cleaned schema may retain: its key is not deny-listed,
it is not an empty required array, and not an items schema that is an empty
object or array. -/
def entryOkay (kv : String × Json) : Bool :=
  decide (kv.1 ∉ denyList) &&
  decide (¬(kv.1 = "required" ∧ kv.2 = Json.arr [])) &&
  decide (¬(kv.1 = "items" ∧ isObjLike kv.2 = true ∧ jsKeysLen kv.2 = 0))

/-- A truthy required entry is accompanied by a truthy properties entry. -/
def requiredImpliesProperties (l : List (String × Json)) : Bool :=
  !jsTruthyOpt (lookupKey "required" l) || jsTruthyOpt (lookupKey "properties" l)

/-- The invariant every object node of a cleaned schema satisfies. -/
def goodLocal (l : List (String × Json)) : Bool :=
  l.all entryOkay && requiredImpliesProperties l

theorem cleanParametersList_length (xs : List Json) :
    (cleanParametersList xs).length = xs.length := by
  induction xs with
  | nil => rfl
  | cons x xs ih => simp [cleanParametersList, ih]

/-- cleanParameters maps only empty arrays to empty arrays. -/
theorem eq_arr_nil_of_clean (v : Json) (h : cleanParameters v = .arr []) :
    v = .arr [] := by
  cases v with
  | arr xs =>
      cases xs with
      | nil => rfl
      | cons y ys => simp [cleanParameters, cleanParametersList] at h
  | str s => simp [cleanParameters] at h
  | num n => simp [cleanParameters] at h
  | bool b => simp [cleanParameters] at h
  | obj kvs => simp [cleanParameters] at h

/-- cleanParameters never turns a non-object-like value into one. -/
theorem not_objLike_clean (v : Json) (h : isObjLike v = false) :
    isObjLike (cleanParameters v) = false := by
  cases v with
  | arr xs => simp [isObjLike] at h
  | obj kvs => simp [isObjLike] at h
  | str s => simpa [cleanParameters] using h
  | num n => simpa [cleanParameters] using h
  | bool b => simpa [cleanParameters] using h

theorem lookupKey_filter_self (k : String) (l : List (String × Json)) :
    lookupKey k (l.filter fun kv => kv.1 ≠ k) = none := by
  induction l with
  | nil => rfl
  | cons kv rest ih =>
      by_cases hk : kv.1 = k
      · simpa [List.filter, hk] using ih
      · simpa [List.filter, hk, lookupKey] using ih

theorem lookupKey_filter_none (k : String) (q : String × Json → Bool)
    (l : List (String × Json)) (h : lookupKey k l = none) :
    lookupKey k (l.filter q) = none := by
  induction l with
  | nil => rfl
  | cons kv rest ih =>
      rw [lookupKey] at h
      split at h
      · exact absurd h (by simp)
      · rename_i hne
        cases hq : q kv with
        | true => simpa [List.filter, hq, lookupKey, hne] using ih h
        | false => simpa [List.filter, hq] using ih h

theorem all_of_filter {α : Type} (p q : α → Bool) (l : List α) (h : l.all p = true) :
    (l.filter q).all p = true := by
  simp only [List.all_eq_true] at h ⊢
  intro x hx
  exact h x (List.mem_of_mem_filter hx)

theorem allObjsEntries_filter (p : List (String × Json) → Bool)
    (q : String × Json → Bool) (l : List (String × Json))
    (h : allObjsEntries p l = true) : allObjsEntries p (l.filter q) = true := by
  induction l with
  | nil => rfl
  | cons kv rest ih =>
      obtain ⟨k, v⟩ := kv
      rw [allObjsEntries, Bool.and_eq_true] at h
      cases hq : q (k, v) with
      | true => simpa [List.filter, hq, allObjsEntries, h.1] using ih h.2
      | false => simpa [List.filter, hq] using ih h.2

theorem goodLocal_requiredFixup (l : List (String × Json)) (h : l.all entryOkay = true) :
    goodLocal (requiredFixup l) = true := by
  unfold goodLocal requiredFixup
  split
  · rw [Bool.and_eq_true]
    refine ⟨all_of_filter _ _ _ h, ?_⟩
    unfold requiredImpliesProperties
    rw [lookupKey_filter_self]
    simp [jsTruthyOpt]
  · rename_i hc
    rw [Bool.and_eq_true]
    refine ⟨h, ?_⟩
    unfold requiredImpliesProperties
    by_cases h1 : jsTruthyOpt (lookupKey "required" l) = true
    · have h2 : jsTruthyOpt (lookupKey "properties" l) = true := by
        by_contra h2
        exact hc ⟨h1, fun hh => h2 hh⟩
      simp [h1, h2]
    · simp [Bool.not_eq_true] at h1
      simp [h1]

theorem allObjsEntries_requiredFixup (l : List (String × Json))
    (h : allObjsEntries goodLocal l = true) :
    allObjsEntries goodLocal (requiredFixup l) = true := by
  unfold requiredFixup
  split
  · exact allObjsEntries_filter _ _ _ h
  · exact h

mutual

/-- Every object node of a cleaned schema satisfies the local invariant. -/
theorem clean_allObjs_good : ∀ j, allObjs goodLocal (cleanParameters j) = true
  | .str s => by simp [cleanParameters, allObjs]
  | .num n => by simp [cleanParameters, allObjs]
  | .bool b => by simp [cleanParameters, allObjs]
  | .arr xs => by
      simpa [cleanParameters, allObjs] using cleanList_allObjs_good xs
  | .obj kvs => by
      have h := cleanEntries_good kvs
      rw [cleanParameters, allObjs, Bool.and_eq_true]
      exact ⟨goodLocal_requiredFixup _ h.1, allObjsEntries_requiredFixup _ h.2⟩

theorem cleanList_allObjs_good : ∀ xs, allObjsList goodLocal (cleanParametersList xs) = true
  | [] => rfl
  | x :: xs => by
      simp [cleanParametersList, allObjsList, clean_allObjs_good x,
        cleanList_allObjs_good xs]

theorem cleanEntries_good : ∀ kvs,
    (cleanEntries kvs).all entryOkay = true ∧
    allObjsEntries goodLocal (cleanEntries kvs) = true
  | [] => ⟨rfl, rfl⟩
  | (k, v) :: rest => by
      by_cases c1 : k ∈ denyList
      · simpa [cleanEntries, c1] using cleanEntries_good rest
      by_cases c2 : k = "required" ∧ v = Json.arr []
      · simpa [cleanEntries, c1, c2] using cleanEntries_good rest
      by_cases c3 : k = "properties" ∧ isObjLike v = true ∧ jsKeysLen v = 0
      · simpa [cleanEntries, c1, c2, c3] using cleanEntries_good rest
      by_cases c4 : k = "items" ∧ isObjLike v = true
      · obtain ⟨hk, hov⟩ := c4
        subst hk
        by_cases c5 : jsKeysLen (cleanParameters v) = 0
        · have ih := cleanEntries_good rest
          rw [show cleanEntries (("items", v) :: rest)
                = ("items", Json.obj [("type", Json.str "string")]) :: cleanEntries rest
              from by
                simp [cleanEntries, hov, c5,
                  show ("items" : String) ∉ denyList from by decide]]
          constructor
          · rw [List.all_cons, Bool.and_eq_true]
            exact ⟨by decide, ih.1⟩
          · rw [allObjsEntries, Bool.and_eq_true]
            exact ⟨by decide, ih.2⟩
        · have ih := cleanEntries_good rest
          have hcl := clean_allObjs_good v
          rw [show cleanEntries (("items", v) :: rest)
                = ("items", cleanParameters v) :: cleanEntries rest
              from by
                simp [cleanEntries, hov, c5,
                  show ("items" : String) ∉ denyList from by decide]]
          have hek : entryOkay ("items", cleanParameters v) = true := by
            simp only [entryOkay]
            rw [decide_eq_true (show ("items" : String) ∉ denyList from by decide),
              decide_eq_true
                (show ¬(("items" : String) = "required" ∧ cleanParameters v = Json.arr [])
                 from fun h => absurd h.1 (by decide))]
            simp [c5]
          constructor
          · rw [List.all_cons, Bool.and_eq_true]
            exact ⟨hek, ih.1⟩
          · rw [allObjsEntries, Bool.and_eq_true]
            exact ⟨hcl, ih.2⟩
      · have ih := cleanEntries_good rest
        have hcl := clean_allObjs_good v
        rw [show cleanEntries ((k, v) :: rest)
              = (k, cleanParameters v) :: cleanEntries rest
            from by simp [cleanEntries, c1, c2, c3, c4]]
        have hek : entryOkay (k, cleanParameters v) = true := by
          have h2 : ¬(k = "required" ∧ cleanParameters v = Json.arr []) :=
            fun h => c2 ⟨h.1, eq_arr_nil_of_clean v h.2⟩
          have h3 : ¬(k = "items" ∧ isObjLike (cleanParameters v) = true ∧
              jsKeysLen (cleanParameters v) = 0) := by
            rintro ⟨hk, hobj, -⟩
            have hno : isObjLike v = false := by
              cases hov : isObjLike v
              · rfl
              · exact absurd ⟨hk, hov⟩ c4
            rw [not_objLike_clean v hno] at hobj
            exact Bool.false_ne_true hobj
          simp only [entryOkay]
          rw [decide_eq_true c1, decide_eq_true h2, decide_eq_true h3]
          rfl
        constructor
        · rw [List.all_cons, Bool.and_eq_true]
          exact ⟨hek, ih.1⟩
        · rw [allObjsEntries, Bool.and_eq_true]
          exact ⟨hcl, ih.2⟩

end

mutual

/-- Deny-listed keys do not occur in values all of whose object nodes are good. -/
theorem occursKey_false_of_good (k : String) (hk : k ∈ denyList) :
    ∀ j, allObjs goodLocal j = true → occursKey k j = false
  | .str _, _ => rfl
  | .num _, _ => rfl
  | .bool _, _ => rfl
  | .arr xs, h => by
      rw [allObjs] at h
      rw [occursKey]
      exact occursKeyList_false_of_good k hk xs h
  | .obj kvs, h => by
      rw [allObjs, Bool.and_eq_true] at h
      rw [occursKey]
      exact occursKeyEntries_false_of_good k hk kvs
        ((Bool.and_eq_true _ _).mp h.1).1 h.2

theorem occursKeyList_false_of_good (k : String) (hk : k ∈ denyList) :
    ∀ xs, allObjsList goodLocal xs = true → occursKeyList k xs = false
  | [], _ => rfl
  | x :: xs, h => by
      rw [allObjsList, Bool.and_eq_true] at h
      rw [occursKeyList, Bool.or_eq_false_iff]
      exact ⟨occursKey_false_of_good k hk x h.1, occursKeyList_false_of_good k hk xs h.2⟩

theorem occursKeyEntries_false_of_good (k : String) (hk : k ∈ denyList) :
    ∀ l, l.all entryOkay = true → allObjsEntries goodLocal l = true →
      occursKeyEntries k l = false
  | [], _, _ => rfl
  | (k', v) :: rest, ha, ho => by
      rw [List.all_cons, Bool.and_eq_true] at ha
      rw [allObjsEntries, Bool.and_eq_true] at ho
      have hkk : (k' == k) = false := by
        have h1 : k' ∉ denyList := by
          have := ha.1
          unfold entryOkay at this
          rw [Bool.and_eq_true, Bool.and_eq_true] at this
          exact of_decide_eq_true this.1.1
        rw [beq_eq_false_iff_ne]
        intro he
        exact h1 (he ▸ hk)
      rw [occursKeyEntries, Bool.or_eq_false_iff, Bool.or_eq_false_iff]
      exact ⟨⟨hkk, occursKey_false_of_good k hk v ho.1⟩,
        occursKeyEntries_false_of_good k hk rest ha.2 ho.2⟩

end

mutual

/-- allObjs is monotone in the local predicate. -/
theorem allObjs_mono (p q : List (String × Json) → Bool)
    (hpq : ∀ l, p l = true → q l = true) :
    ∀ j, allObjs p j = true → allObjs q j = true
  | .str _, _ => rfl
  | .num _, _ => rfl
  | .bool _, _ => rfl
  | .arr xs, h => by
      rw [allObjs] at h ⊢
      exact allObjsList_mono p q hpq xs h
  | .obj kvs, h => by
      rw [allObjs, Bool.and_eq_true] at h ⊢
      exact ⟨hpq _ h.1, allObjsEntries_mono p q hpq kvs h.2⟩

theorem allObjsList_mono (p q : List (String × Json) → Bool)
    (hpq : ∀ l, p l = true → q l = true) :
    ∀ xs, allObjsList p xs = true → allObjsList q xs = true
  | [], _ => rfl
  | x :: xs, h => by
      rw [allObjsList, Bool.and_eq_true] at h ⊢
      exact ⟨allObjs_mono p q hpq x h.1, allObjsList_mono p q hpq xs h.2⟩

theorem allObjsEntries_mono (p q : List (String × Json) → Bool)
    (hpq : ∀ l, p l = true → q l = true) :
    ∀ l, allObjsEntries p l = true → allObjsEntries q l = true
  | [], _ => rfl
  | (_, v) :: rest, h => by
      rw [allObjsEntries, Bool.and_eq_true] at h ⊢
      exact ⟨allObjs_mono p q hpq v h.1, allObjsEntries_mono p q hpq rest h.2⟩

end

/-- No object node of the value binds required to an empty array. -/
def noEmptyRequired (l : List (String × Json)) : Bool :=
  l.all fun kv => decide (¬(kv.1 = "required" ∧ kv.2 = Json.arr []))

/-- No object node of the value binds items to an empty object or array. -/
def noEmptyItems (l : List (String × Json)) : Bool :=
  l.all fun kv => decide (¬(kv.1 = "items" ∧ isObjLike kv.2 = true ∧ jsKeysLen kv.2 = 0))

theorem goodLocal_imp_noEmptyRequired (l : List (String × Json))
    (h : goodLocal l = true) : noEmptyRequired l = true := by
  rw [goodLocal, Bool.and_eq_true] at h
  rw [noEmptyRequired, List.all_eq_true]
  intro kv hkv
  have := (List.all_eq_true.mp h.1) kv hkv
  unfold entryOkay at this
  rw [Bool.and_eq_true, Bool.and_eq_true] at this
  exact this.1.2

theorem goodLocal_imp_noEmptyItems (l : List (String × Json))
    (h : goodLocal l = true) : noEmptyItems l = true := by
  rw [goodLocal, Bool.and_eq_true] at h
  rw [noEmptyItems, List.all_eq_true]
  intro kv hkv
  have := (List.all_eq_true.mp h.1) kv hkv
  unfold entryOkay at this
  rw [Bool.and_eq_true, Bool.and_eq_true] at this
  exact this.2

theorem goodLocal_imp_reqProps (l : List (String × Json))
    (h : goodLocal l = true) : requiredImpliesProperties l = true := by
  rw [goodLocal, Bool.and_eq_true] at h
  exact h.2

/-- The entry list of a JSON object ([] for non-objects). -/
def objEntries : Json → List (String × Json)
  | .obj kvs => kvs
  | _ => []

theorem lookupKey_properties_cleanEntries :
    ∀ kvs : List (String × Json),
      (∀ v, ("properties", v) ∈ kvs → isObjLike v = true ∧ jsKeysLen v = 0) →
      lookupKey "properties" (cleanEntries kvs) = none := by
  intro kvs
  induction kvs with
  | nil => intro _; rfl
  | cons kv rest ih =>
      obtain ⟨k, v⟩ := kv
      intro hp
      have ihr := ih (fun v hv => hp v (List.mem_cons_of_mem _ hv))
      by_cases c1 : k ∈ denyList
      · simpa [cleanEntries, c1] using ihr
      by_cases c2 : k = "required" ∧ v = Json.arr []
      · simpa [cleanEntries, c1, c2] using ihr
      by_cases c3 : k = "properties" ∧ isObjLike v = true ∧ jsKeysLen v = 0
      · simpa [cleanEntries, c1, c2, c3] using ihr
      have hkp : k ≠ "properties" := by
        intro he
        subst he
        exact c3 ⟨rfl, hp v (List.mem_cons_self _ _)⟩
      by_cases c4 : k = "items" ∧ isObjLike v = true
      · obtain ⟨hk, hov⟩ := c4
        subst hk
        by_cases c5 : jsKeysLen (cleanParameters v) = 0
        · rw [show cleanEntries (("items", v) :: rest)
                = ("items", Json.obj [("type", Json.str "string")]) :: cleanEntries rest
              from by
                simp [cleanEntries, hov, c5,
                  show ("items" : String) ∉ denyList from by decide]]
          simpa [lookupKey] using ihr
        · rw [show cleanEntries (("items", v) :: rest)
                = ("items", cleanParameters v) :: cleanEntries rest
              from by
                simp [cleanEntries, hov, c5,
                  show ("items" : String) ∉ denyList from by decide]]
          simpa [lookupKey] using ihr
      · rw [show cleanEntries ((k, v) :: rest)
              = (k, cleanParameters v) :: cleanEntries rest
            from by simp [cleanEntries, c1, c2, c3, c4]]
        simpa [lookupKey, hkp] using ihr

theorem items_empty_replaced_entries :
    ∀ kvs : List (String × Json), ∀ v,
      ("items", v) ∈ kvs → isObjLike v = true → jsKeysLen (cleanParameters v) = 0 →
      ("items", Json.obj [("type", Json.str "string")]) ∈ cleanEntries kvs := by
  intro kvs
  induction kvs with
  | nil => intro v hv; cases hv
  | cons kv rest ih =>
      obtain ⟨k, w⟩ := kv
      intro v hv hov hlen
      rcases List.mem_cons.mp hv with hhead | htail
      · injection hhead with hk hw
        subst hk
        subst hw
        rw [show cleanEntries (("items", v) :: rest)
              = ("items", Json.obj [("type", Json.str "string")]) :: cleanEntries rest
            from by
              simp [cleanEntries, hov, hlen,
                show ("items" : String) ∉ denyList from by decide]]
        exact List.mem_cons_self _ _
      · have ihr := ih v htail hov hlen
        by_cases c1 : k ∈ denyList
        · simpa [cleanEntries, c1] using ihr
        by_cases c2 : k = "required" ∧ w = Json.arr []
        · simpa [cleanEntries, c1, c2] using ihr
        by_cases c3 : k = "properties" ∧ isObjLike w = true ∧ jsKeysLen w = 0
        · simpa [cleanEntries, c1, c2, c3] using ihr
        by_cases c4 : k = "items" ∧ isObjLike w = true
        · obtain ⟨hk, how⟩ := c4
          subst hk
          by_cases c5 : jsKeysLen (cleanParameters w) = 0
          · rw [show cleanEntries (("items", w) :: rest)
                  = ("items", Json.obj [("type", Json.str "string")]) :: cleanEntries rest
                from by
                  simp [cleanEntries, how, c5,
                    show ("items" : String) ∉ denyList from by decide]]
            exact List.mem_cons_of_mem _ ihr
          · rw [show cleanEntries (("items", w) :: rest)
                  = ("items", cleanParameters w) :: cleanEntries rest
                from by
                  simp [cleanEntries, how, c5,
                    show ("items" : String) ∉ denyList from by decide]]
            exact List.mem_cons_of_mem _ ihr
        · rw [show cleanEntries ((k, w) :: rest)
                = (k, cleanParameters w) :: cleanEntries rest
              from by simp [cleanEntries, c1, c2, c3, c4]]
          exact List.mem_cons_of_mem _ ihr

theorem mem_requiredFixup_of_items {kvs : List (String × Json)} {v : Json}
    (h : ("items", v) ∈ kvs) : ("items", v) ∈ requiredFixup kvs := by
  unfold requiredFixup
  split
  · exact List.mem_filter.mpr ⟨h, by simp⟩
  · exact h

/-- C4 counterexample: cleanParameters is not idempotent.  The emptiness
checks run on the not-yet-cleaned values, so a properties object whose only
entry is a deny-listed key survives the first pass as an empty properties
object and is only dropped by a second pass:
clean of obj properties [format 1] keeps an empty properties entry, while a
second clean removes it. -/
theorem cleanParameters_not_idempotent :
    cleanParameters (cleanParameters
        (Json.obj [("properties", Json.obj [("format", Json.num 1)])]))
      ≠ cleanParameters (Json.obj [("properties", Json.obj [("format", Json.num 1)])]) := by
  decide

/-- C4 (amended): cleanParameters strips every deny-listed key at every
nesting depth (including inside items and array schemas); its output never
binds required to an empty array nor items to an empty object or array at
any depth; in every object of the output a truthy required entry is
accompanied by a truthy properties entry (the dangling-required deletion);
a properties entry that is empty in the input is dropped; and an items
schema that cleans to an empty object is replaced by the schema
type string.  (The original claim's idempotence conjunct is false, see
cleanParameters_not_idempotent.) -/
theorem cleanParameters_sanitization_properties :
    (∀ j k, k ∈ denyList → occursKey k (cleanParameters j) = false) ∧
    (∀ j, allObjs noEmptyRequired (cleanParameters j) = true) ∧
    (∀ j, allObjs noEmptyItems (cleanParameters j) = true) ∧
    (∀ j, allObjs requiredImpliesProperties (cleanParameters j) = true) ∧
    (∀ kvs, (∀ v, ("properties", v) ∈ kvs → isObjLike v = true ∧ jsKeysLen v = 0) →
      lookupKey "properties" (objEntries (cleanParameters (.obj kvs))) = none) ∧
    (∀ kvs v, ("items", v) ∈ kvs → isObjLike v = true →
      jsKeysLen (cleanParameters v) = 0 →
      ("items", Json.obj [("type", Json.str "string")])
        ∈ objEntries (cleanParameters (.obj kvs))) := by
  refine ⟨?_, ?_, ?_, ?_, ?_, ?_⟩
  · exact fun j k hk => occursKey_false_of_good k hk _ (clean_allObjs_good j)
  · exact fun j => allObjs_mono _ _ goodLocal_imp_noEmptyRequired _ (clean_allObjs_good j)
  · exact fun j => allObjs_mono _ _ goodLocal_imp_noEmptyItems _ (clean_allObjs_good j)
  · exact fun j => allObjs_mono _ _ goodLocal_imp_reqProps _ (clean_allObjs_good j)
  · intro kvs hp
    rw [cleanParameters, objEntries]
    have h := lookupKey_properties_cleanEntries kvs hp
    unfold requiredFixup
    split
    · exact lookupKey_filter_none _ _ _ h
    · exact h
  · intro kvs v hm hov hlen
    rw [cleanParameters, objEntries]
    exact mem_requiredFixup_of_items (items_empty_replaced_entries kvs v hm hov hlen)

/-- Witness for cleanParameters_sanitization_properties at concrete inputs. -/
theorem cleanParameters_sanitization_properties_witness :
    occursKey "$schema"
      (cleanParameters (Json.obj [("$schema", Json.str "d7"),
        ("items", Json.arr [Json.obj [("default", Json.num 1)]])])) = false ∧
    lookupKey "properties"
      (objEntries (cleanParameters (Json.obj [("properties", Json.obj [])]))) = none ∧
    ("items", Json.obj [("type", Json.str "string")])
      ∈ objEntries (cleanParameters
          (Json.obj [("items", Json.obj [("$ref", Json.str "x")])])) := by
  refine ⟨?_, ?_, ?_⟩
  · exact cleanParameters_sanitization_properties.1 _ "$schema" (by decide)
  · refine cleanParameters_sanitization_properties.2.2.2.2.1 _ ?_
    intro v hv
    rw [List.mem_singleton] at hv
    injection hv with h1 h2
    subst h2
    exact ⟨rfl, rfl⟩
  · refine cleanParameters_sanitization_properties.2.2.2.2.2 _ (Json.obj [("$ref", Json.str "x")])
      (List.mem_singleton.mpr rfl) rfl (by decide)

/-! ## Tool declarations (transformRequestIn, tools section) -/

/-- JS truthiness of a possibly-absent string (undefined and "" are falsy). -/
def jsTruthyStrOpt : Option String → Bool
  | none => false
  | some s => s ≠ ""

/-- The function wrapper of an OpenAI-shaped tool. -/
structure FuncSpec where
  name : String
  description : Option String
  parameters : Option Json
deriving DecidableEq

/-- An inbound tool declaration, duck-typed as the transformer inspects it. -/
structure ReqTool where
  type : Option String
  name : Option String
  description : Option String
  input_schema : Option Json
  parameters : Option Json
  function : Option FuncSpec
deriving DecidableEq

/-- An emitted Gemini functionDeclaration. -/
structure FunctionDecl where
  name : String
  description : String
  parameters : Json
deriving DecidableEq

/-- The default parameters emitted for an empty schema (note the lowercase
type value, exactly as the source writes it). -/
def emptyParams : Json := .obj [("type", .str "object"), ("properties", .obj [])]

/-- cleanedParams if truthy with at least one key, else the empty default. -/
def paramsOrEmpty (c : Json) : Json :=
  if jsTruthy c = true ∧ 0 < jsKeysLen c then c else emptyParams

/-- One iteration of the tools loop of transformRequestIn: none means the
tool is skipped (web_search tools and unknown shapes). -/
def buildDeclaration (tool : ReqTool) : Option FunctionDecl :=
  if tool.type = some "web_search_20250305" then none
  else if jsTruthyStrOpt tool.name = true ∧ jsTruthyOpt tool.input_schema = true then
    some ⟨tool.name.getD "", tool.description.getD "",
      paramsOrEmpty (cleanParameters (tool.input_schema.getD (.obj [])))⟩
  else if jsTruthyStrOpt tool.name = true ∧ jsTruthyOpt tool.parameters = true then
    some ⟨tool.name.getD "", tool.description.getD "",
      paramsOrEmpty (cleanParameters (tool.parameters.getD (.obj [])))⟩
  else
    match tool.function with
    | some f =>
        some ⟨f.name, f.description.getD "",
          match f.parameters with
          | some p => paramsOrEmpty (cleanParameters p)
          | none => emptyParams⟩
    | none =>
        if jsTruthyStrOpt tool.name = true then
          some ⟨tool.name.getD "", tool.description.getD "", emptyParams⟩
        else none

/-- The functionDeclarations list collected by transformRequestIn. -/
def buildFunctionDeclarations (tools : List ReqTool) : List FunctionDecl :=
  tools.filterMap buildDeclaration

/-- The six schema types the upstream accepts according to the spec. -/
def upperTypes : List String :=
  ["OBJECT", "STRING", "ARRAY", "BOOLEAN", "NUMBER", "INTEGER"]

/-- A tool with no schema at all (name-only shape). -/
def bareTool : ReqTool :=
  { type := none, name := some "bare", description := none,
    input_schema := none, parameters := none, function := none }

/-- The grep_search example from the repository's own documentation. -/
def docTool : ReqTool :=
  { type := none
    name := some "grep_search"
    description := some "Search for text..."
    input_schema := some (.obj
      [("type", .str "object"),
       ("properties", .obj
         [("Query", .obj [("type", .str "string"), ("description", .str "Search term")]),
          ("CaseInsensitive", .obj [("type", .str "boolean")])]),
       ("required", .arr [.str "Query"]),
       ("additionalProperties", .bool false),
       ("$schema", .str "json-schema draft-07")])
    parameters := none
    function := none }

/-- C2: the emitted functionDeclaration parameters keep their lowercase type
values; no casing conversion is applied anywhere (contradicting the code's
own comment and the repository documentation, which promise
object to OBJECT etc.), and an empty schema yields lowercase type object.
Evaluated at the documentation's own grep_search example and a bare tool. -/
theorem antigravity_tool_types_not_uppercased :
    ((buildFunctionDeclarations [docTool, bareTool]).map
        (fun d => lookupKey "type" (objEntries d.parameters)))
      = [some (.str "object"), some (.str "object")] ∧
    ((buildFunctionDeclarations [docTool, bareTool]).map
        (fun d => lookupKey "type"
          (objEntries ((lookupKey "Query"
            (objEntries ((lookupKey "properties" (objEntries d.parameters)).getD
              (.obj [])))).getD (.obj [])))))
      = [some (.str "string"), none] ∧
    (∀ u ∈ upperTypes, Json.str u ≠ Json.str "object" ∧ Json.str u ≠ Json.str "string") := by
  refine ⟨by decide, by decide, by decide⟩

/-! ## The custom Antigravity router -/

/-- Does the needle occur as a prefix of the haystack? -/
def hasPrefixChars : List Char → List Char → Bool
  | _, [] => true
  | [], _ :: _ => false
  | c :: cs, d :: ds => (c = d) && hasPrefixChars cs ds

/-- Does the needle occur anywhere in the haystack? -/
def hasSubstrChars : List Char → List Char → Bool
  | [], needle => needle.isEmpty
  | c :: cs, needle => hasPrefixChars (c :: cs) needle || hasSubstrChars cs needle

/-- JS String.prototype.includes. -/
def jsIncludes (s sub : String) : Bool := hasSubstrChars s.data sub.data

/-- The request body fields the custom router reads. -/
structure RouterRequestBody where
  tools : Option (List ReqTool)
  model : Option String
  thinking : Bool
deriving DecidableEq

/-- The custom router of the Antigravity provider: web-search detection
first, then substring-based model fallback.  Returns the
provider,model route string. -/
def routerAntigravity (req : RouterRequestBody) : String :=
  let tools := req.tools.getD []
  if tools.any (fun t => t.type = some "web_search_20250305") then
    "antigravity-websearch,gemini-2.5-flash"
  else
    let modelLower := (req.model.getD "").toLower
    if jsIncludes modelLower "opus" then "antigravity,claude-opus-4-5-thinking"
    else if jsIncludes modelLower "haiku" then "antigravity,gemini3-pro-high"
    else if jsIncludes modelLower "sonnet" then "antigravity,claude-sonnet-4-5-thinking"
    else if req.thinking then "antigravity,claude-opus-4-5-thinking"
    else "antigravity,claude-sonnet-4-5-thinking"

/-- C7: any tool carrying the web_search_20250305 tag (the router identifies
the web-search tool by its type field, the tag the Anthropic wire protocol
declares it under) routes the request to the web-search pipeline, regardless
of the other tools and of the declared model. -/
theorem router_web_search_selects_websearch_pipeline
    (req : RouterRequestBody) (ts : List ReqTool) (t : ReqTool)
    (hts : req.tools = some ts) (hmem : t ∈ ts)
    (htype : t.type = some "web_search_20250305") :
    routerAntigravity req = "antigravity-websearch,gemini-2.5-flash" := by
  unfold routerAntigravity
  rw [hts]
  have h : ((ts.any fun t => t.type = some "web_search_20250305")) = true :=
    List.any_eq_true.mpr ⟨t, hmem, by simp [htype]⟩
  simp [h]

/-- The Anthropic web-search server tool declaration. -/
def webSearchTool : ReqTool :=
  { type := some "web_search_20250305", name := some "web_search",
    description := none, input_schema := none, parameters := none, function := none }

/-- Witness: a haiku-model request carrying both a normal tool and the
web-search tool routes to the web-search pipeline. -/
theorem router_web_search_selects_websearch_pipeline_witness :
    routerAntigravity
      { tools := some [docTool, webSearchTool],
        model := some "claude-3-5-haiku-20241022", thinking := false }
      = "antigravity-websearch,gemini-2.5-flash" :=
  router_web_search_selects_websearch_pipeline _ _ webSearchTool rfl (by decide) rfl

/-! ## OAuth token acquisition (three variants) -/

/-- Stored Google OAuth credentials, as read from the credentials file. -/
structure GoogleCreds where
  client_id : Option String
  client_secret : Option String
  refresh_token : Option String
  access_token : Option String
  token_expiry : Option Int
deriving DecidableEq

/-- JS truthiness of a possibly-absent number. -/
def jsTruthyIntOpt : Option Int → Bool
  | none => false
  | some n => n ≠ 0

/-- Observable side effects of a token-acquisition call. -/
inductive AuthEffect where
  | refreshPost
  | interactiveLogin
deriving DecidableEq

/-- Result of a token-acquisition call (network outcomes abstracted: the
refreshRequested constructor marks that control reached the refresh POST). -/
inductive TokenOutcome where
  | errNoCredentials
  | errNoRefreshToken
  | cached (token : String)
  | refreshRequested
  | nullToken
deriving DecidableEq

namespace Antigravity

/-- getFreshAccessToken of the Antigravity transformer: throws when the
credentials file is missing or holds no refresh token, returns the stored
access token while it has more than 5 minutes of life left, otherwise
refreshes.  There is no module-level cache and no in-flight tracking: the
decision depends only on the credentials file and the clock. -/
def getFreshAccessToken (creds : Option GoogleCreds) (now : Int) :
    TokenOutcome × List AuthEffect :=
  match creds with
  | none => (.errNoCredentials, [])
  | some c =>
      if jsTruthyStrOpt c.refresh_token = false then (.errNoRefreshToken, [])
      else if jsTruthyStrOpt c.access_token = true ∧ jsTruthyIntOpt c.token_expiry = true ∧
          300000 < c.token_expiry.getD 0 - now then
        (.cached (c.access_token.getD ""), [])
      else (.refreshRequested, [.refreshPost])

end Antigravity

namespace InterceptorLib

/-- getFreshAccessToken of the library-based gemini-interceptor: serves a
valid module cache, and when no refresh token is stored it starts the
interactive runLoginFlow (terminal prompt, browser, local HTTP listener)
right from the request path; loginResult is the credentials produced by
that flow, if any.  (The invalid_grant re-login retries deeper in the
function are not modelled; no claim depends on them.) -/
def getFreshAccessToken (cachedAccessToken : Option String) (tokenExpiryTime : Int)
    (creds : Option GoogleCreds) (loginResult : Option GoogleCreds) (now : Int) :
    TokenOutcome × List AuthEffect :=
  if jsTruthyStrOpt cachedAccessToken = true ∧ now + 300000 < tokenExpiryTime then
    (.cached (cachedAccessToken.getD ""), [])
  else if jsTruthyStrOpt (creds.bind (·.refresh_token)) = false then
    match loginResult with
    | some lc =>
        if jsTruthyStrOpt lc.refresh_token = true then
          (.refreshRequested, [.interactiveLogin, .refreshPost])
        else (.nullToken, [.interactiveLogin])
    | none => (.nullToken, [.interactiveLogin])
  else (.refreshRequested, [.refreshPost])

end InterceptorLib

namespace InterceptorPure

/-- getFreshAccessToken of the pure-API gemini-interceptor: serves a valid
module cache, returns null (no error, no login) when no refresh token is
stored, otherwise refreshes. -/
def getFreshAccessToken (cachedAccessToken : Option String) (tokenExpiryTime : Int)
    (creds : Option GoogleCreds) (now : Int) : TokenOutcome × List AuthEffect :=
  if jsTruthyStrOpt cachedAccessToken = true ∧ now + 300000 < tokenExpiryTime then
    (.cached (cachedAccessToken.getD ""), [])
  else if jsTruthyStrOpt (creds.bind (·.refresh_token)) = false then (.nullToken, [])
  else (.refreshRequested, [.refreshPost])

end InterceptorPure

/-- Credentials with client data but no refresh token. -/
def credsNoRefresh : GoogleCreds :=
  { client_id := some "cid", client_secret := some "sec",
    refresh_token := none, access_token := some "at", token_expiry := some 999999999 }

/-- C6 counterexample: the library-based interceptor starts the interactive
login flow from its token path — which transformRequestIn awaits on every
request — when the stored credentials lack a refresh token, instead of
failing with a not-authenticated error. -/
theorem interceptor_starts_login_from_request_path :
    AuthEffect.interactiveLogin ∈
      (InterceptorLib.getFreshAccessToken none 0 (some credsNoRefresh) none 1000).2 ∧
    jsTruthyStrOpt credsNoRefresh.refresh_token = false := by
  decide

/-- C6 (amended): in the Antigravity transformer, credentials without a
refresh token make token acquisition fail with the no-refresh-token error,
with no refresh POST and no interactive login; the pure-API interceptor
likewise performs no login but returns a null token (the request then
proceeds without Authorization) instead of failing.  The library-based
interceptor, by contrast, starts the interactive login flow from the
request path (see interceptor_starts_login_from_request_path). -/
theorem no_refresh_token_fails_without_login :
    (∀ (c : GoogleCreds) (now : Int), jsTruthyStrOpt c.refresh_token = false →
      Antigravity.getFreshAccessToken (some c) now = (.errNoRefreshToken, [])) ∧
    (∀ (cache : Option String) (expTime : Int) (creds : Option GoogleCreds) (now : Int),
      jsTruthyStrOpt cache = false →
      jsTruthyStrOpt (creds.bind (·.refresh_token)) = false →
      InterceptorPure.getFreshAccessToken cache expTime creds now = (.nullToken, [])) := by
  constructor
  · intro c now hc
    unfold Antigravity.getFreshAccessToken
    simp [hc]
  · intro cache expTime creds now hcache hrt
    unfold InterceptorPure.getFreshAccessToken
    simp [hcache, hrt]

/-- Witness for no_refresh_token_fails_without_login at concrete inputs. -/
theorem no_refresh_token_fails_without_login_witness :
    Antigravity.getFreshAccessToken (some credsNoRefresh) 0
      = (.errNoRefreshToken, []) ∧
    InterceptorPure.getFreshAccessToken none 0 (some credsNoRefresh) 0
      = (.nullToken, []) :=
  ⟨no_refresh_token_fails_without_login.1 credsNoRefresh 0 (by decide),
   no_refresh_token_fails_without_login.2 none 0 (some credsNoRefresh) 0
     (by decide) (by decide)⟩

/-! ## Concurrency model for the refresh race (C3)

The Antigravity getFreshAccessToken has no lock, no shared in-flight
promise and no module cache: each caller synchronously reads the
credentials file and decides from it alone whether to issue a refresh
POST; the POST then awaits a full HTTPS round-trip before the file is
updated.  In the Node event loop the interleaving where every concurrent
caller runs its synchronous prefix before any refresh response arrives is
therefore admissible, and nothing in the source can forbid it. -/

/-- Whether a caller that starts against this credentials file issues a
refresh POST (read off the embedded getFreshAccessToken). -/
def refreshDecision (file : GoogleCreds) (now : Int) : Bool :=
  (Antigravity.getFreshAccessToken (some file) now).2.contains .refreshPost

/-- Where a concurrent caller stands. -/
inductive CallerPhase where
  | ready
  | waiting
  | done
deriving DecidableEq

/-- Global state of n concurrent getFreshAccessToken calls. -/
structure RefreshRace where
  file : GoogleCreds
  phases : List CallerPhase
  posts : Nat
  inflight : Nat
  maxInflight : Nat
deriving DecidableEq

/-- Scheduler actions: run caller i's synchronous prefix, or deliver the
response of caller i's in-flight refresh. -/
inductive RaceOp where
  | start (i : Nat)
  | finish (i : Nat)

/-- One scheduler step.  A start step consults only the credentials file —
exactly what the source does — so its enabling never depends on inflight. -/
def raceStep (now : Int) (freshCreds : GoogleCreds) (s : RefreshRace) : RaceOp → RefreshRace
  | .start i =>
      if s.phases.getD i .done = .ready then
        if refreshDecision s.file now then
          { s with phases := s.phases.set i .waiting,
                   posts := s.posts + 1,
                   inflight := s.inflight + 1,
                   maxInflight := max s.maxInflight (s.inflight + 1) }
        else { s with phases := s.phases.set i .done }
      else s
  | .finish i =>
      if s.phases.getD i .done = .waiting then
        { s with file := freshCreds,
                 phases := s.phases.set i .done,
                 inflight := s.inflight - 1 }
      else s

/-- Run a schedule of steps. -/
def runRace (now : Int) (freshCreds : GoogleCreds) (s : RefreshRace)
    (ops : List RaceOp) : RefreshRace :=
  ops.foldl (raceStep now freshCreds) s

/-- Credentials whose access token expires in 1 minute (inside the 5-minute
safety margin, so a refresh is due). -/
def soonExpiringCreds : GoogleCreds :=
  { client_id := some "cid", client_secret := some "sec",
    refresh_token := some "rt", access_token := some "at",
    token_expiry := some 60000 }

/-- Credentials whose access token expires in 10 minutes (still valid). -/
def longValidCreds : GoogleCreds :=
  { soonExpiringCreds with token_expiry := some 600000 }

/-- The refreshed credentials written back after a successful POST. -/
def refreshedCreds : GoogleCreds :=
  { soonExpiringCreds with access_token := some "at2", token_expiry := some 3600000 }

/-- Ten callers not yet started. -/
def tenReady (file : GoogleCreds) : RefreshRace :=
  { file := file, phases := List.replicate 10 .ready,
    posts := 0, inflight := 0, maxInflight := 0 }

/-- C3: the token path is not single-flight.  Under the admissible schedule
in which ten concurrent callers all observe a token that expires in one
minute before any refresh completes, the code issues ten refresh POSTs with
ten simultaneously in flight — the claim requires exactly one.  (With a
ten-minute expiry the cached token is served and no POST is issued, the
half of the spec's test the code does satisfy.) -/
theorem token_refresh_not_single_flight :
    (runRace 0 refreshedCreds (tenReady soonExpiringCreds)
        ((List.range 10).map RaceOp.start)).posts = 10 ∧
    (runRace 0 refreshedCreds (tenReady soonExpiringCreds)
        ((List.range 10).map RaceOp.start)).maxInflight = 10 ∧
    (runRace 0 refreshedCreds (tenReady longValidCreds)
        ((List.range 10).map RaceOp.start)).posts = 0 := by
  decide

/-! ## Upstream (Gemini-style) reply model -/

/-- A functionCall part payload.  JSON serialization of args is kept as the
JSON tree itself (JSON.stringify is injective and never inspected). -/
structure GFunctionCall where
  id : Option String
  name : String
  args : Option Json
deriving DecidableEq

/-- One part of an upstream candidate. -/
structure GPart where
  text : Option String
  thought : Option Bool
  thoughtSignature : Option String
  functionCall : Option GFunctionCall
deriving DecidableEq

/-- A web result reference inside groundingChunks. -/
structure GWeb where
  uri : String
  title : Option String
  domain : Option String
deriving DecidableEq

/-- One groundingChunks element. -/
structure GChunkRef where
  web : Option GWeb
deriving DecidableEq

/-- groundingMetadata of a candidate. -/
structure GGrounding where
  groundingChunks : Option (List GChunkRef)
  webSearchQueries : Option (List String)
deriving DecidableEq

/-- usageMetadata of an upstream reply. -/
structure GUsage where
  promptTokenCount : Option Nat
  candidatesTokenCount : Option Nat
  totalTokenCount : Option Nat
deriving DecidableEq

/-- candidate.content (parts may be absent). -/
structure GContent where
  parts : Option (List GPart)
deriving DecidableEq

/-- One upstream candidate. -/
structure GCandidate where
  content : Option GContent
  finishReason : Option String
  groundingMetadata : Option GGrounding
deriving DecidableEq

/-- The payload fields of an upstream reply. -/
structure UpstreamInner where
  responseId : Option String
  candidates : Option (List GCandidate)
  usageMetadata : Option GUsage
deriving DecidableEq

/-- A whole upstream reply: either wrapped in a response field or bare.
The bare component carries the same fields at top level; code that
unwraps computes response || bare. -/
structure UpstreamBody where
  response : Option UpstreamInner
  bare : UpstreamInner
deriving DecidableEq

/-- The parts of a candidate (candidate.content?.parts || []). -/
def GCandidate.partsOf (cand : GCandidate) : List GPart :=
  (cand.content.bind (·.parts)).getD []

/-- JS string || with a default (empty string is falsy). -/
def jsStrOr (o : Option String) (d : String) : String :=
  match o with
  | some s => if s = "" then d else s
  | none => d

/-- ASCII lowercasing of one character (A-Z to a-z). -/
def lowerChar (c : Char) : Char :=
  if 65 ≤ c.toNat ∧ c.toNat ≤ 90 then Char.ofNat (c.toNat + 32) else c

/-- toLowerCase as the source applies it to upstream finish reasons; those
are ASCII tokens (STOP, MAX_TOKENS, ...), on which JS toLowerCase is
exactly ASCII lowercasing. -/
def jsToLower (s : String) : String := String.mk (s.data.map lowerChar)

/-! ## Non-streaming response transformation (transformJsonResponse) -/

/-- An emitted OpenAI-style tool call. -/
structure OutToolCall where
  id : String
  name : String
  argsJson : Json
deriving DecidableEq

/-- The thinking block of an emitted message. -/
structure ThinkingOut where
  content : String
  signature : String
deriving DecidableEq

/-- The chat-completion object transformJsonResponse builds. -/
structure ChatCompletion where
  id : Option String
  finish_reason : String
  content : String
  tool_calls : Option (List OutToolCall)
  thinking : Option ThinkingOut
  model : String
  prompt_tokens : Nat
  completion_tokens : Nat
  total_tokens : Nat
deriving DecidableEq

/-- Result of the non-streaming path: the original response object is
returned unchanged (passthrough) when the body lacks wrapped candidates. -/
inductive JsonTransformResult where
  | passthrough
  | completion (c : ChatCompletion)
deriving DecidableEq

/-- The chat-completion transformJsonResponse builds from the first
candidate of a wrapped reply (the body of the happy path; gen supplies the
random tool_... identifiers, indexed by position in the tool-call list). -/
def completionOf (gen : Nat → String) (modelToUse : String)
    (inner : UpstreamInner) (cand : GCandidate) : ChatCompletion :=
  let parts := cand.partsOf
  let thinkingContent := String.join ((parts.filter fun p =>
      jsTruthyStrOpt p.text = true ∧ p.thought = some true).map
        (fun p => p.text.getD ""))
  let nonThinkingParts := parts.filter fun p =>
      ¬(jsTruthyStrOpt p.text = true ∧ p.thought = some true)
  let thinkingSignature := (parts.find? fun p =>
      jsTruthyStrOpt p.thoughtSignature).bind (·.thoughtSignature)
  let toolCalls := (nonThinkingParts.filterMap (·.functionCall)).mapIdx
      fun k fc =>
        { id := jsStrOr fc.id (gen k), name := fc.name,
          argsJson := fc.args.getD (.obj []) : OutToolCall }
  let textContent := String.intercalate "\n" ((nonThinkingParts.filter fun p =>
      jsTruthyStrOpt p.text = true ∧ p.thought ≠ some true).map
        (fun p => p.text.getD ""))
  { id := inner.responseId
    finish_reason := jsToLower (jsStrOr cand.finishReason "stop")
    content := textContent
    tool_calls := if toolCalls.length > 0 then some toolCalls else none
    thinking := thinkingSignature.map fun s =>
      { content := if thinkingContent = "" then "(no content)" else thinkingContent
        signature := s }
    model := modelToUse
    prompt_tokens := (inner.usageMetadata.bind (·.promptTokenCount)).getD 0
    completion_tokens := (inner.usageMetadata.bind (·.candidatesTokenCount)).getD 0
    total_tokens := (inner.usageMetadata.bind (·.totalTokenCount)).getD 0 }

/-- transformJsonResponse of the Antigravity transformer.  requestedModel is
the context's requestModel, defaultModel the configured fallback.  Note the
guard reads data.response only: a bare (unwrapped) body is never
transformed. -/
def transformJsonResponse (gen : Nat → String) (requestedModel : Option String)
    (defaultModel : String) (data : UpstreamBody) : JsonTransformResult :=
  match data.response with
  | none => .passthrough
  | some inner =>
      match inner.candidates with
      | none => .passthrough
      | some [] => .passthrough
      | some (cand :: _) =>
          .completion (completionOf gen (jsStrOr requestedModel defaultModel) inner cand)

theorem filter_nonThinking_text (parts : List GPart) :
    ((parts.filter fun p => ¬(jsTruthyStrOpt p.text = true ∧ p.thought = some true)).filter
        fun p => jsTruthyStrOpt p.text = true ∧ p.thought ≠ some true)
      = parts.filter fun p => jsTruthyStrOpt p.text = true ∧ p.thought ≠ some true := by
  rw [List.filter_filter]
  apply List.filter_congr
  intro p _
  by_cases h1 : jsTruthyStrOpt p.text = true <;> by_cases h2 : p.thought = some true <;>
    simp [h1, h2]

/-- C8 (amended): for a wrapped upstream reply with at least one candidate
and a non-empty requested model, the emitted chat-completion has the
lowercased finish reason (stop when absent), content equal to the
non-thought text parts joined with newlines, one tool call per functionCall
part of the non-thought parts (ids generated when the upstream omits them),
the thinking block present exactly when a truthy thoughtSignature occurs
(its text being the concatenated thought parts), the originally requested
model echoed back, and the usage counters mapped from usageMetadata.
(A bare, unwrapped reply is not transformed, see
transformJsonResponse_bare_passthrough.) -/
theorem transformJsonResponse_wrapped_completion
    (gen : Nat → String) (m dm : String) (data : UpstreamBody)
    (inner : UpstreamInner) (cand : GCandidate) (rest : List GCandidate)
    (h1 : data.response = some inner)
    (h2 : inner.candidates = some (cand :: rest))
    (hm : m ≠ "") :
    transformJsonResponse gen (some m) dm data = .completion
      { id := inner.responseId
        finish_reason := jsToLower (jsStrOr cand.finishReason "stop")
        content := String.intercalate "\n" ((cand.partsOf.filter fun p =>
            jsTruthyStrOpt p.text = true ∧ p.thought ≠ some true).map
              (fun p => p.text.getD ""))
        tool_calls := (fun tc => if tc.length > 0 then some tc else none)
          (((cand.partsOf.filter fun p =>
              ¬(jsTruthyStrOpt p.text = true ∧ p.thought = some true)).filterMap
                (·.functionCall)).mapIdx fun k fc =>
              { id := jsStrOr fc.id (gen k), name := fc.name,
                argsJson := fc.args.getD (.obj []) })
        thinking := ((cand.partsOf.find? fun p =>
            jsTruthyStrOpt p.thoughtSignature).bind (·.thoughtSignature)).map fun s =>
          { content := (fun t => if t = "" then "(no content)" else t)
              (String.join ((cand.partsOf.filter fun p =>
                  jsTruthyStrOpt p.text = true ∧ p.thought = some true).map
                    (fun p => p.text.getD "")))
            signature := s }
        model := m
        prompt_tokens := (inner.usageMetadata.bind (·.promptTokenCount)).getD 0
        completion_tokens := (inner.usageMetadata.bind (·.candidatesTokenCount)).getD 0
        total_tokens := (inner.usageMetadata.bind (·.totalTokenCount)).getD 0 } := by
  simp only [transformJsonResponse, h1, h2]
  have hmm : jsStrOr (some m) dm = m := by simp [jsStrOr, hm]
  simp only [completionOf, hmm, filter_nonThinking_text]

/-- Identifier supply standing in for the Math.random tool ids. -/
def genT : Nat → String := fun k => "tool_gen" ++ toString k

/-- The three parts of the documentation's non-streaming example. -/
def docParts : List GPart :=
  [{ text := some "Hello!", thought := some true, thoughtSignature := none,
     functionCall := none },
   { text := some "The answer is 42", thought := none, thoughtSignature := none,
     functionCall := none },
   { text := none, thought := none, thoughtSignature := some "sig_abc",
     functionCall := none }]

/-- The documentation's non-streaming example reply (wrapped form). -/
def docUpstream : UpstreamBody :=
  { response := some
      { responseId := some "resp_123"
        candidates := some
          [{ content := some ⟨some docParts⟩, finishReason := some "STOP",
             groundingMetadata := none }]
        usageMetadata := some ⟨some 100, some 50, some 150⟩ }
    bare := { responseId := none, candidates := none, usageMetadata := none } }

/-- Witness: the documentation example evaluates to the documented
chat-completion. -/
theorem transformJsonResponse_wrapped_completion_witness :
    ("gemini-3-pro-low" : String) ≠ "" ∧
    transformJsonResponse genT (some "gemini-3-pro-low") "dm" docUpstream = .completion
      { id := some "resp_123", finish_reason := "stop", content := "The answer is 42",
        tool_calls := none, thinking := some ⟨"Hello!", "sig_abc"⟩,
        model := "gemini-3-pro-low", prompt_tokens := 100, completion_tokens := 50,
        total_tokens := 150 } :=
  ⟨by decide, by
    rw [transformJsonResponse_wrapped_completion genT "gemini-3-pro-low" "dm"
      docUpstream _ _ _ rfl rfl (by decide)]
    decide⟩

/-- A bare (unwrapped) reply with one candidate. -/
def barePlainPart : GPart :=
  { text := some "hello", thought := none, thoughtSignature := none,
    functionCall := none }

def bareUpstream : UpstreamBody :=
  { response := none
    bare :=
      { responseId := some "r1"
        candidates := some
          [{ content := some ⟨some [barePlainPart]⟩,
             finishReason := some "STOP", groundingMetadata := none }]
        usageMetadata := none } }

/-- C8 counterexample: a bare upstream reply that does contain a candidate
is returned untransformed — transformJsonResponse only unwraps the
response field, unlike the streaming path's response-or-bare handling. -/
theorem transformJsonResponse_bare_passthrough :
    transformJsonResponse genT (some "m") "dm" bareUpstream = .passthrough ∧
    ((bareUpstream.response.getD bareUpstream.bare).candidates.getD []).length = 1 := by
  decide

/-- C10: in the non-streaming transformation the emitted message carries a
thinking block iff some part has a truthy thoughtSignature; with no
signature the thought-true texts appear neither as thinking nor in the
content (which only joins non-thought texts); and a signature with no
thought text yields thinking content "(no content)". -/
theorem transformJsonResponse_thinking_iff_signature
    (gen : Nat → String) (rm : Option String) (dm : String) (data : UpstreamBody)
    (inner : UpstreamInner) (cand : GCandidate) (rest : List GCandidate)
    (h1 : data.response = some inner)
    (h2 : inner.candidates = some (cand :: rest)) :
    ∃ c, transformJsonResponse gen rm dm data = .completion c ∧
      (c.thinking.isSome = true ↔
        (cand.partsOf.any fun p => jsTruthyStrOpt p.thoughtSignature) = true) ∧
      ((cand.partsOf.all fun p =>
          ¬(jsTruthyStrOpt p.text = true ∧ p.thought = some true)) = true →
        ∀ t, c.thinking = some t → t.content = "(no content)") ∧
      c.content = String.intercalate "\n" ((cand.partsOf.filter fun p =>
          jsTruthyStrOpt p.text = true ∧ p.thought ≠ some true).map
            (fun p => p.text.getD "")) := by
  refine ⟨completionOf gen (jsStrOr rm dm) inner cand,
    by simp only [transformJsonResponse, h1, h2], ?_, ?_, ?_⟩
  · simp only [completionOf]
    constructor
    · intro hs
      rcases hf : cand.partsOf.find? fun p => jsTruthyStrOpt p.thoughtSignature with _ | p0
      · rw [hf] at hs
        simp at hs
      · have hmem := List.mem_of_find?_eq_some hf
        have hps := List.find?_some hf
        exact List.any_eq_true.mpr ⟨p0, hmem, hps⟩
    · intro ha
      rcases List.any_eq_true.mp ha with ⟨p0, hp0, hsig⟩
      have hsome : (cand.partsOf.find? fun p => jsTruthyStrOpt p.thoughtSignature).isSome :=
        List.find?_isSome.mpr ⟨p0, hp0, hsig⟩
      rcases hf : cand.partsOf.find? fun p => jsTruthyStrOpt p.thoughtSignature with _ | q
      · rw [hf] at hsome
        simp at hsome
      · have hq := List.find?_some hf
        rcases hqs : q.thoughtSignature with _ | s
        · simp [jsTruthyStrOpt, hqs] at hq
        · simp [hf, hqs]
  · simp only [completionOf]
    intro hall t ht
    have hempty : (cand.partsOf.filter fun p =>
        jsTruthyStrOpt p.text = true ∧ p.thought = some true) = [] := by
      rw [List.filter_eq_nil_iff]
      intro p hp hdec
      exact (of_decide_eq_true (List.all_eq_true.mp hall p hp)) (of_decide_eq_true hdec)
    rw [hempty] at ht
    rcases hb : (cand.partsOf.find? fun p =>
        jsTruthyStrOpt p.thoughtSignature).bind (·.thoughtSignature) with _ | s
    · rw [hb] at ht
      simp at ht
    · rw [hb] at ht
      injection ht with ht2
      subst ht2
      simp [String.join]
  · simp only [completionOf]
    rw [filter_nonThinking_text]

/-- Witness for transformJsonResponse_thinking_iff_signature at the
documentation example (signature present, thinking emitted). -/
theorem transformJsonResponse_thinking_iff_signature_witness :
    ∃ c, transformJsonResponse genT (some "gemini-3-pro-low") "dm" docUpstream
        = .completion c ∧
      (c.thinking.isSome = true ↔
        (((docUpstream.response.getD docUpstream.bare).candidates.getD []).headD
            { content := none, finishReason := none, groundingMetadata := none }
          |>.partsOf.any fun p => jsTruthyStrOpt p.thoughtSignature) = true) := by
  obtain ⟨c, hc, hiff, -, -⟩ :=
    transformJsonResponse_thinking_iff_signature genT (some "gemini-3-pro-low") "dm"
      docUpstream _ _ _ rfl rfl
  exact ⟨c, hc, by simpa using hiff⟩

/-! ## Response dispatch (transformResponseOut of both plugins) -/

/-- The response metadata the dispatchers read. -/
structure HttpResponseMeta where
  status : Nat
  contentType : String
deriving DecidableEq

/-- fetch Response.ok: status in the 2xx range. -/
def respOk (r : HttpResponseMeta) : Bool := 200 ≤ r.status ∧ r.status < 300

/-- What the Antigravity transformResponseOut does with a response.
passthrough returns the original Response object (status, headers and body
untouched); streamTransformed builds a new Response with a re-synthesized
SSE body and a fixed header set; jsonCompletion builds a new Response with
the transformed JSON body (original status and headers kept);
webSearchSse/webSearchThrow are the web-search JSON branch. -/
inductive RespOutcome where
  | passthrough
  | webSearchSse
  | webSearchThrow
  | streamTransformed
  | jsonCompletion (c : ChatCompletion)
deriving DecidableEq

/-- transformResponseOut of the Antigravity transformer: dispatches purely
on the isWebSearch flag and the Content-Type header; the status is never
consulted. -/
def transformResponseOut (gen : Nat → String) (requestedModel : Option String)
    (defaultModel : String) (isWebSearch : Bool) (resp : HttpResponseMeta)
    (body : UpstreamBody) : RespOutcome :=
  if isWebSearch = true ∧ jsIncludes resp.contentType "application/json" = true then
    match body.response.bind (·.candidates) with
    | some (_ :: _) => .webSearchSse
    | _ => .webSearchThrow
  else if jsIncludes resp.contentType "text/event-stream" = true ∨
      jsIncludes resp.contentType "stream" = true then
    .streamTransformed
  else if jsIncludes resp.contentType "application/json" = true then
    match transformJsonResponse gen requestedModel defaultModel body with
    | .passthrough => .passthrough
    | .completion c => .jsonCompletion c
  else .passthrough

/-- What the gemini-interceptor transformResponseOut does with a response. -/
inductive InterceptorRespOutcome where
  | errorPassthrough
  | jsonUnwrapped (inner : UpstreamInner)
  | streamRewritten
deriving DecidableEq

/-- transformResponseOut of both gemini-interceptor variants: non-ok
responses are returned unchanged before any content-type dispatch. -/
def interceptorTransformResponseOut (resp : HttpResponseMeta)
    (body : UpstreamBody) : InterceptorRespOutcome :=
  if respOk resp = false then .errorPassthrough
  else if jsIncludes resp.contentType "text/event-stream" = false then
    .jsonUnwrapped (body.response.getD body.bare)
  else .streamRewritten

/-- An upstream body with no payload (a typical error body parses to
something without a response field). -/
def emptyUpstream : UpstreamBody :=
  { response := none, bare := { responseId := none, candidates := none, usageMetadata := none } }

/-- C9 counterexample: a 500 upstream response whose Content-Type indicates
streaming is run through the stream transformer by the Antigravity plugin —
its body is re-synthesized and its headers replaced — rather than being
relayed unmodified. -/
theorem error_stream_response_transformed :
    transformResponseOut genT (some "m") "dm" false
        { status := 500, contentType := "text/event-stream" } emptyUpstream
      = .streamTransformed ∧
    respOk { status := 500, contentType := "text/event-stream" } = false := by
  decide

/-- C9 (amended): the gemini-interceptor paths return every non-2xx
response unchanged (they check response.ok before any transformation); the
Antigravity transformResponseOut never inspects the status and dispatches
on Content-Type alone, so a non-2xx JSON body that the JSON transformer
leaves alone (no wrapped candidates) is returned unchanged, while a non-2xx
response with a streaming content type is transformed like a success (see
error_stream_response_transformed). -/
theorem error_responses_relay :
    (∀ (r : HttpResponseMeta) (body : UpstreamBody), respOk r = false →
      interceptorTransformResponseOut r body = .errorPassthrough) ∧
    (∀ (gen : Nat → String) (rm : Option String) (dm : String)
        (r : HttpResponseMeta) (body : UpstreamBody),
      jsIncludes r.contentType "text/event-stream" = false →
      jsIncludes r.contentType "stream" = false →
      jsIncludes r.contentType "application/json" = true →
      transformJsonResponse gen rm dm body = .passthrough →
      transformResponseOut gen rm dm false r body = .passthrough) := by
  constructor
  · intro r body hok
    unfold interceptorTransformResponseOut
    simp [hok]
  · intro gen rm dm r body hs1 hs2 hj hp
    unfold transformResponseOut
    rw [hs1, hs2, hj, hp]
    simp

/-- Witness for error_responses_relay: a 500 application/json error body. -/
theorem error_responses_relay_witness :
    interceptorTransformResponseOut { status := 500, contentType := "application/json" }
        emptyUpstream = .errorPassthrough ∧
    transformResponseOut genT (some "m") "dm" false
        { status := 500, contentType := "application/json" } emptyUpstream
      = .passthrough :=
  ⟨error_responses_relay.1 _ emptyUpstream (by decide),
   error_responses_relay.2 genT (some "m") "dm" _ emptyUpstream
     (by decide) (by decide) (by decide) (by decide)⟩

/-! ## Request transformation: messages to contents (transformRequestIn) -/

/-- One element of an array-valued message content. -/
inductive ContentBlock where
  | text (s : String)
  | imageUrl (url : String) (media_type : String)
  | other
deriving DecidableEq

/-- The content of an inbound chat message. -/
inductive MsgContent where
  | text (s : String)
  | blocks (bs : List ContentBlock)
  | absent
deriving DecidableEq

/-- One inbound tool call (function wrapper flattened: the source reads
toolCall.function.name and toolCall.function.arguments). -/
structure ToolCall where
  id : Option String
  name : String
  arguments : Option String
deriving DecidableEq

/-- An inbound chat message as transformRequestIn reads it. -/
structure ChatMessage where
  role : String
  content : MsgContent
  tool_calls : Option (List ToolCall)
  tool_call_id : Option String
  thinkingSignature : Option String
deriving DecidableEq

/-- One part of an emitted content.  functionCall args keeps the wire text
of toolCall.function.arguments (JSON.parse of arguments||'{}' is abstracted:
it is injective on the wire text and never inspected downstream);
functionResponse output keeps the matched tool message's content. -/
inductive GenPart where
  | text (s : String) (sig : Option String)
  | fileData (mime : String) (uri : String)
  | inlineData (mime : String) (data : String)
  | functionCall (id : String) (name : String) (args : Option String) (sig : Option String)
  | functionResponse (id : Option String) (name : Option String) (output : Option MsgContent)
deriving DecidableEq

/-- An emitted content (role and parts). -/
structure Content where
  role : String
  parts : List GenPart
deriving DecidableEq

/-- url.split(',').pop() || url. -/
def splitCommaLast (s : String) : String :=
  match (s.splitOn ",").getLast? with
  | some t => if t = "" then s else t
  | none => s

/-- The message's thinking signature when truthy (message.thinking?.signature). -/
def sigOf (m : ChatMessage) : Option String :=
  match m.thinkingSignature with
  | some s => if s = "" then none else some s
  | none => none

/-- The text/image parts of a message (the content handling of the message
loop; a string content carries the thinking signature). -/
def textPartsOf (m : ChatMessage) : List GenPart :=
  match m.content with
  | .text s => if s = "" then [] else [.text s (sigOf m)]
  | .blocks bs => bs.filterMap fun b =>
      match b with
      | .text t => if t = "" then none else some (.text t none)
      | .imageUrl url mt =>
          if url.startsWith "http" then some (.fileData mt url)
          else some (.inlineData mt (splitCommaLast url))
      | .other => none
  | .absent => []

/-- List.map with the element index, starting at k. -/
def mapWithIndex (f : Nat → α → β) : Nat → List α → List β
  | _, [] => []
  | k, x :: xs => f k x :: mapWithIndex f (k + 1) xs

/-- The functionCall parts built from a message's tool_calls (index 0
carries the thinking signature; absent ids are generated). -/
def callPartsOf (gen : Nat → String) (m : ChatMessage) : List GenPart :=
  match m.tool_calls with
  | some tcs => mapWithIndex (fun i tc =>
      .functionCall (jsStrOr tc.id (gen i)) tc.name tc.arguments
        (if i = 0 then sigOf m else none)) 0 tcs
  | none => []

/-- The synthesized functionResponse parts for a model message's tool
calls, matched against the request's tool-role messages by tool_call_id. -/
def functionResponsesFor (toolResponses : List ChatMessage) (tcs : List ToolCall) :
    List GenPart :=
  tcs.map fun tc =>
    .functionResponse tc.id (some tc.name)
      ((toolResponses.find? fun tm => tm.tool_call_id == tc.id).map (·.content))

/-- One iteration of the message loop: the emitted contents for one
non-tool message (none for system messages, the main content when it has
parts, and the functionResponse content right after a model message with
tool calls). -/
def emitFor (gen : Nat → String) (toolResponses : List ChatMessage)
    (m : ChatMessage) : List Content :=
  if m.role = "system" then []
  else
    let role := if m.role = "assistant" then "model" else "user"
    let parts := textPartsOf m ++ callPartsOf gen m
    let main : List Content := if parts.isEmpty then [] else [⟨role, parts⟩]
    let responses : List Content :=
      if role = "model" then
        match m.tool_calls with
        | some tcs =>
            if (functionResponsesFor toolResponses tcs).isEmpty then []
            else [⟨"user", functionResponsesFor toolResponses tcs⟩]
        | none => []
      else []
    main ++ responses

/-- The contents array transformRequestIn builds from the request's
messages (tool-role messages feed the functionResponse matching and are
not iterated). -/
def transformContents (gen : Nat → String) (messages : List ChatMessage) :
    List Content :=
  (messages.filter fun m => m.role ≠ "tool").flatMap
    (emitFor gen (messages.filter fun m => m.role = "tool"))

/-- Is this part a functionCall? -/
def GenPart.isFunctionCall : GenPart → Bool
  | .functionCall .. => true
  | _ => false

/-- Is this part a functionResponse? -/
def GenPart.isFunctionResponse : GenPart → Bool
  | .functionResponse .. => true
  | _ => false

/-- The functionCall parts of a content. -/
def fcParts (c : Content) : List GenPart := c.parts.filter GenPart.isFunctionCall

/-- c' is the functionResponse content answering c's functionCall parts:
user role, exactly one functionResponse per functionCall, in the same
order, each carrying the call's name, the call's original id (absent or
empty ids stay untruthy on the response while the call's id was
generated), and as output the content of the first tool-role message whose
tool_call_id equals that id — or nothing when no tool message matches. -/
def respondsTo (toolResponses : List ChatMessage) (c c' : Content) : Prop :=
  c'.role = "user" ∧
  c'.parts.length = (fcParts c).length ∧
  (∀ p ∈ c'.parts, p.isFunctionResponse = true) ∧
  (∀ (j : Nat) fid fname fargs fsig,
    (fcParts c)[j]? = some (GenPart.functionCall fid fname fargs fsig) →
    ∃ rid rout, c'.parts[j]? = some (GenPart.functionResponse rid (some fname) rout) ∧
      (jsTruthyStrOpt rid = false ∨ rid = some fid) ∧
      rout = (toolResponses.find? fun tm => tm.tool_call_id == rid).map (·.content))

theorem mapWithIndex_length (f : Nat → α → β) :
    ∀ (k : Nat) (xs : List α), (mapWithIndex f k xs).length = xs.length
  | _, [] => rfl
  | k, _ :: xs => by simp [mapWithIndex, mapWithIndex_length f (k + 1) xs]

theorem mapWithIndex_getElem? (f : Nat → α → β) :
    ∀ (k : Nat) (xs : List α) (j : Nat),
      (mapWithIndex f k xs)[j]? = (xs[j]?).map (f (k + j))
  | _, [], j => by simp [mapWithIndex]
  | k, x :: xs, 0 => by simp [mapWithIndex]
  | k, x :: xs, j + 1 => by
      have ih := mapWithIndex_getElem? f (k + 1) xs j
      simp only [mapWithIndex, List.getElem?_cons_succ, ih]
      have : k + 1 + j = k + (j + 1) := by omega
      rw [this]

theorem textPartsOf_no_functionCall (m : ChatMessage) :
    ∀ p ∈ textPartsOf m, p.isFunctionCall = false := by
  intro p hp
  unfold textPartsOf at hp
  rcases hmc : m.content with s | bs | _
  · rw [hmc] at hp
    by_cases hs : s = ""
    · simp [hs] at hp
    · simp only [hs, if_false, List.mem_singleton] at hp
      subst hp
      rfl
  · rw [hmc] at hp
    simp only [List.mem_filterMap] at hp
    obtain ⟨b, -, hb⟩ := hp
    rcases b with t | ⟨url, mt⟩ | _
    · by_cases ht : t = ""
      · simp [ht] at hb
      · simp only [ht, if_false, Option.some_inj] at hb
        subst hb
        rfl
    · by_cases hu : url.startsWith "http" = true
      · simp only [hu, if_true, Option.some_inj] at hb
        subst hb
        rfl
      · simp only [Bool.not_eq_true] at hu
        simp only [hu, Bool.false_eq_true, if_false, Option.some_inj] at hb
        subst hb
        rfl
    · simp at hb
  · rw [hmc] at hp
    simp at hp

theorem mem_mapWithIndex (f : Nat → α → β) :
    ∀ (k : Nat) (xs : List α) (y : β), y ∈ mapWithIndex f k xs → ∃ i x, y = f i x
  | _, [], y, h => by simp [mapWithIndex] at h
  | k, x :: xs, y, h => by
      rw [show mapWithIndex f k (x :: xs) = f k x :: mapWithIndex f (k + 1) xs
          from rfl] at h
      rcases List.mem_cons.mp h with h | h
      · exact ⟨k, x, h⟩
      · exact mem_mapWithIndex f (k + 1) xs y h

theorem callPartsOf_all_functionCall (gen : Nat → String) (m : ChatMessage) :
    ∀ p ∈ callPartsOf gen m, p.isFunctionCall = true := by
  intro p hp
  unfold callPartsOf at hp
  rcases htc : m.tool_calls with _ | tcs
  · rw [htc] at hp
    simp at hp
  · rw [htc] at hp
    obtain ⟨i, tc, h⟩ := mem_mapWithIndex
      (fun i tc => GenPart.functionCall (jsStrOr tc.id (gen i)) tc.name tc.arguments
        (if i = 0 then sigOf m else none)) 0 tcs p hp
    subst h
    rfl

theorem fcParts_main (gen : Nat → String) (m : ChatMessage) (role : String) :
    fcParts ⟨role, textPartsOf m ++ callPartsOf gen m⟩ = callPartsOf gen m := by
  unfold fcParts
  simp only [List.filter_append]
  rw [List.filter_eq_nil_iff.mpr, List.filter_eq_self.mpr, List.nil_append]
  · exact callPartsOf_all_functionCall gen m
  · intro p hp hq
    rw [textPartsOf_no_functionCall m p hp] at hq
    cases hq

/-- The adjacency property survives flatMap when each chunk already
satisfies it. -/
theorem flatMap_adjacent {α β : Type} (f : α → List β) (P : β → Prop)
    (G : β → β → Prop)
    (h : ∀ a (i : Nat) c, (f a)[i]? = some c → P c →
      ∃ c', (f a)[i+1]? = some c' ∧ G c c') :
    ∀ (ms : List α) (i : Nat) c, (ms.flatMap f)[i]? = some c → P c →
      ∃ c', (ms.flatMap f)[i+1]? = some c' ∧ G c c' := by
  intro ms
  induction ms with
  | nil => intro i c hc; simp at hc
  | cons a ms ih =>
      intro i c hc hP
      rw [List.flatMap_cons] at hc ⊢
      by_cases hi : i < (f a).length
      · rw [List.getElem?_append_left hi] at hc
        obtain ⟨c', hc', hG⟩ := h a i c hc hP
        have hi1 : i + 1 < (f a).length := by
          by_contra hge
          rw [List.getElem?_eq_none (by omega)] at hc'
          cases hc'
        exact ⟨c', by rw [List.getElem?_append_left hi1]; exact hc', hG⟩
      · push_neg at hi
        rw [List.getElem?_append_right hi] at hc
        obtain ⟨c', hc', hG⟩ := ih (i - (f a).length) c hc hP
        refine ⟨c', ?_, hG⟩
        rw [List.getElem?_append_right (by omega)]
        have : i + 1 - (f a).length = i - (f a).length + 1 := by omega
        rw [this]
        exact hc'

theorem functionResponsesFor_pairs (tr : List ChatMessage) (gen : Nat → String)
    (m : ChatMessage) (tcs : List ToolCall) (j : Nat)
    (fid fname : String) (fargs fsig : Option String)
    (hj : (callPartsOf gen m)[j]? = some (GenPart.functionCall fid fname fargs fsig))
    (htc : m.tool_calls = some tcs) :
    ∃ rid rout,
      (functionResponsesFor tr tcs)[j]? = some (GenPart.functionResponse rid (some fname) rout) ∧
      (jsTruthyStrOpt rid = false ∨ rid = some fid) ∧
      rout = (tr.find? fun tm => tm.tool_call_id == rid).map (·.content) := by
  unfold callPartsOf at hj
  rw [htc] at hj
  rw [mapWithIndex_getElem?] at hj
  rcases hg : tcs[j]? with _ | tcj
  · rw [hg] at hj
    cases hj
  · rw [hg] at hj
    simp only [Option.map_some'] at hj
    injection hj with hj2
    injection hj2 with hid hname hargs hsig
    refine ⟨tcj.id, _, ?_, ?_, rfl⟩
    · unfold functionResponsesFor
      rw [List.getElem?_map, hg, Option.map_some']
      rw [hname]
    · rcases hti : tcj.id with _ | x
      · left
        rfl
      · by_cases hx : x = ""
        · left
          rw [hx]
          rfl
        · right
          rw [← hid, hti]
          simp [jsStrOr, hx]

theorem emitFor_chunkOk (gen : Nat → String) (tr : List ChatMessage) (m : ChatMessage) :
    ∀ (i : Nat) (c : Content), (emitFor gen tr m)[i]? = some c →
      (c.role = "model" ∧ fcParts c ≠ []) →
      ∃ c', (emitFor gen tr m)[i+1]? = some c' ∧ respondsTo tr c c' := by
  intro i c hc hP
  unfold emitFor at hc ⊢
  by_cases hsys : m.role = "system"
  · simp [hsys] at hc
  simp only [hsys, if_false] at hc ⊢
  by_cases hrole : m.role = "assistant"
  case neg =>
    -- user-role content: it can carry functionCall parts, but its role is
    -- user, so the hypothesis cannot hold
    exfalso
    simp only [hrole, if_false] at hc
    rcases hi : i with _ | i'
    · subst hi
      rcases he : (textPartsOf m ++ callPartsOf gen m).isEmpty with _ | _
      · rw [he] at hc
        simp only [Bool.false_eq_true, if_false, List.cons_append, List.nil_append] at hc
        rw [show (0 : Nat) = 0 from rfl] at hc
        have : c = ⟨"user", textPartsOf m ++ callPartsOf gen m⟩ := by
          simpa using hc.symm
        rw [this] at hP
        exact absurd hP.1 (by simp)
      · rw [he] at hc
        simp at hc
    · subst hi
      rcases he : (textPartsOf m ++ callPartsOf gen m).isEmpty with _ | _
      · rw [he] at hc
        simp at hc
      · rw [he] at hc
        simp at hc
  case pos =>
    simp only [hrole, if_true] at hc ⊢
    rcases htc : m.tool_calls with _ | tcs
    · -- no tool calls: no functionCall parts can appear
      exfalso
      rw [htc] at hc
      simp only [List.append_nil] at hc
      rcases hi : i with _ | i'
      · subst hi
        rcases he : (textPartsOf m ++ callPartsOf gen m).isEmpty with _ | _
        · rw [he] at hc
          simp only [Bool.false_eq_true, if_false, List.append_nil] at hc
          have hcc : c = ⟨"model", textPartsOf m ++ callPartsOf gen m⟩ := by
            simpa using hc.symm
          rw [hcc] at hP
          apply hP.2
          rw [fcParts_main]
          unfold callPartsOf
          rw [htc]
        · rw [he] at hc
          simp at hc
      · subst hi
        rcases he : (textPartsOf m ++ callPartsOf gen m).isEmpty with _ | _
        · rw [he] at hc
          simp at hc
        · rw [he] at hc
          simp at hc
    · rcases tcs with _ | ⟨tc0, tcs'⟩
      · -- empty tool_calls array: no functionCall parts, no responses
        exfalso
        rw [htc] at hc
        simp only [functionResponsesFor, List.map_nil, List.isEmpty_nil, if_true,
          List.append_nil] at hc
        rcases hi : i with _ | i'
        · subst hi
          rcases he : (textPartsOf m ++ callPartsOf gen m).isEmpty with _ | _
          · rw [he] at hc
            simp only [Bool.false_eq_true, if_false, List.append_nil] at hc
            have hcc : c = ⟨"model", textPartsOf m ++ callPartsOf gen m⟩ := by
              simpa using hc.symm
            rw [hcc] at hP
            apply hP.2
            rw [fcParts_main]
            unfold callPartsOf
            rw [htc]
            rfl
          · rw [he] at hc
            simp at hc
        · subst hi
          rcases he : (textPartsOf m ++ callPartsOf gen m).isEmpty with _ | _
          · rw [he] at hc
            simp at hc
          · rw [he] at hc
            simp at hc
      · -- at least one tool call: main content then the response content
        have hparts : (textPartsOf m ++ callPartsOf gen m).isEmpty = false := by
          unfold callPartsOf
          rw [htc]
          rcases textPartsOf m with _ | _ <;> rfl
        have hresp : (functionResponsesFor tr (tc0 :: tcs')).isEmpty = false := rfl
        rw [htc] at hc
        simp only [hparts, hresp, Bool.false_eq_true, if_false, List.cons_append,
          List.nil_append] at hc
        simp only [hparts, hresp, Bool.false_eq_true, if_false, List.cons_append,
          List.nil_append]
        rcases hi : i with _ | i'
        · subst hi
          have hcc : c = ⟨"model", textPartsOf m ++ callPartsOf gen m⟩ := by
            simpa using hc.symm
          refine ⟨⟨"user", functionResponsesFor tr (tc0 :: tcs')⟩, rfl, ?_⟩
          rw [hcc]
          refine ⟨rfl, ?_, ?_, ?_⟩
          · rw [fcParts_main]
            unfold functionResponsesFor callPartsOf
            rw [htc, List.length_map, mapWithIndex_length]
          · intro p hp
            unfold functionResponsesFor at hp
            rw [List.mem_map] at hp
            obtain ⟨tc, -, hback⟩ := hp
            rw [← hback]
            rfl
          · intro j fid fname fargs fsig hj
            rw [fcParts_main] at hj
            exact functionResponsesFor_pairs tr gen m (tc0 :: tcs') j fid fname
              fargs fsig hj htc
        · subst hi
          exfalso
          rcases i' with _ | i''
          · have hcc : c = ⟨"user", functionResponsesFor tr (tc0 :: tcs')⟩ := by
              simpa using hc.symm
            rw [hcc] at hP
            exact absurd hP.1 (by simp)
          · simp at hc

/-- C5: whenever the emitted contents hold a model-role content with
functionCall parts, the immediately following content is a user-role
content holding exactly one functionResponse per functionCall, in the same
order, paired to the request's tool-role messages by tool_call_id, with a
functionResponse (of empty output) even for calls no tool message answers. -/
theorem model_functionCalls_followed_by_responses
    (gen : Nat → String) (messages : List ChatMessage) (i : Nat) (c : Content)
    (hc : (transformContents gen messages)[i]? = some c)
    (hrole : c.role = "model") (hfc : fcParts c ≠ []) :
    ∃ c', (transformContents gen messages)[i+1]? = some c' ∧
      respondsTo (messages.filter fun m => m.role = "tool") c c' := by
  unfold transformContents at hc ⊢
  exact flatMap_adjacent _ (fun c => c.role = "model" ∧ fcParts c ≠ [])
    (respondsTo (messages.filter fun m => m.role = "tool"))
    (fun m i c hm hp => emitFor_chunkOk gen _ m i c hm hp)
    _ i c hc ⟨hrole, hfc⟩

/-- The documentation's example tool call. -/
def demoToolCall : ToolCall :=
  { id := some "toolu_123", name := "grep_search", arguments := some "argjson" }

/-- The documentation's tool-call conversation. -/
def demoMessages : List ChatMessage :=
  [{ role := "user", content := .text "hi", tool_calls := none,
     tool_call_id := none, thinkingSignature := none },
   { role := "assistant", content := .text "Let me search for that...",
     tool_calls := some [demoToolCall],
     tool_call_id := none, thinkingSignature := none },
   { role := "tool", content := .text "Found 3 matches...",
     tool_calls := none, tool_call_id := some "toolu_123",
     thinkingSignature := none }]

/-- Witness: in the documentation conversation the model content at index 1
is immediately followed by its functionResponse content. -/
theorem model_functionCalls_followed_by_responses_witness :
    ∃ c', (transformContents genT demoMessages)[2]? = some c' ∧
      respondsTo (demoMessages.filter fun m => m.role = "tool")
        ⟨"model", [.text "Let me search for that..." none,
          .functionCall "toolu_123" "grep_search" (some "argjson") none]⟩ c' :=
  model_functionCalls_followed_by_responses genT demoMessages 1
    ⟨"model", [.text "Let me search for that..." none,
      .functionCall "toolu_123" "grep_search" (some "argjson") none]⟩
    (by decide) rfl (by decide)

/-! ## Streaming response transformation (transformStreamResponse)

One parsed SSE data line at a time; lines that fail to parse or carry no
candidate emit nothing and leave the state unchanged, so streams are
modelled as lists of parsed bodies.  gen supplies the random identifiers
(toolu_/srvtoolu_), indexed by a counter threaded through the state; now
is the Date.now() timestamp; base64 of the encrypted_content placeholder
is abstracted away (it is an injective encoding of uri:index:timestamp
that is never decoded). -/

/-- One web search result entry (page_age is the constant null). -/
structure WebSearchResult where
  title : Option String
  url : String
  encrypted_content : String
deriving DecidableEq

/-- The content_block payloads of content_block_start events. -/
inductive BlockKind where
  | thinking
  | text
  | toolUse (id name : String)
  | serverToolUse (id query : String)
  | webSearchToolResult (toolUseId : String) (results : List WebSearchResult)
deriving DecidableEq

/-- The delta payloads of content_block_delta events. -/
inductive DeltaKind where
  | thinkingDelta (s : String)
  | signatureDelta (s : String)
  | textDelta (s : String)
  | inputJsonDelta (args : Json)
deriving DecidableEq

/-- The Anthropic-style SSE events the stream transformer emits. -/
inductive SseEvent where
  | messageStart (id model : String)
  | contentBlockStart (index : Int) (block : BlockKind)
  | contentBlockDelta (index : Int) (delta : DeltaKind)
  | contentBlockStop (index : Int)
  | messageDelta (inputTokens outputTokens : Nat)
  | messageStop
deriving DecidableEq

/-- The per-response mutable state of transformStreamResponse.  genCounter
is the modelling device indexing the random-id supply; webSearchResultsSent
is declared by the source but never assigned, which the embedding keeps. -/
structure StreamState where
  messageStartSent : Bool
  thinkingBlockStarted : Bool
  thinkingBlockIndex : Int
  textBlockStarted : Bool
  textBlockIndex : Int
  currentBlockIndex : Int
  signatureSent : Bool
  hasThinkingContent : Bool
  lastUsageMetadata : Option GUsage
  webSearchResultsSent : Bool
  genCounter : Nat
deriving DecidableEq

/-- The state before the first chunk arrives. -/
def initialStreamState : StreamState :=
  { messageStartSent := false, thinkingBlockStarted := false, thinkingBlockIndex := -1,
    textBlockStarted := false, textBlockIndex := -1, currentBlockIndex := -1,
    signatureSent := false, hasThinkingContent := false, lastUsageMetadata := none,
    webSearchResultsSent := false, genCounter := 0 }

/-- Fold an emitting step over a part list, concatenating the events. -/
def foldParts (f : StreamState → GPart → StreamState × List SseEvent) :
    StreamState → List GPart → StreamState × List SseEvent
  | st, [] => (st, [])
  | st, p :: ps =>
      let r1 := f st p
      let r2 := foldParts f r1.1 ps
      (r2.1, r1.2 ++ r2.2)

/-- One thought-text part: open a thinking block if none is open, then
emit a thinking_delta. -/
def emitThinkingPart (st : StreamState) (p : GPart) : StreamState × List SseEvent :=
  let st := { st with hasThinkingContent := true }
  if st.thinkingBlockStarted = false then
    let idx := st.currentBlockIndex + 1
    ({ st with
        currentBlockIndex := idx
        thinkingBlockIndex := idx
        thinkingBlockStarted := true },
     [.contentBlockStart idx .thinking,
      .contentBlockDelta idx (.thinkingDelta (p.text.getD ""))])
  else
    (st, [.contentBlockDelta st.thinkingBlockIndex (.thinkingDelta (p.text.getD ""))])

/-- The first unsent truthy thoughtSignature: open a thinking block if
needed, emit signature_delta, close the thinking block. -/
def emitSignature (st : StreamState) (parts : List GPart) : StreamState × List SseEvent :=
  match (parts.find? fun p => jsTruthyStrOpt p.thoughtSignature).bind (·.thoughtSignature) with
  | some s =>
      if st.signatureSent = false then
        let r :=
          if st.thinkingBlockStarted = false then
            let idx := st.currentBlockIndex + 1
            (({ st with
                  currentBlockIndex := idx
                  thinkingBlockIndex := idx
                  thinkingBlockStarted := true } : StreamState),
             [SseEvent.contentBlockStart idx .thinking])
          else (st, ([] : List SseEvent))
        let st := r.1
        ({ st with signatureSent := true, thinkingBlockStarted := false },
         r.2 ++ [.contentBlockDelta st.thinkingBlockIndex (.signatureDelta s),
                 .contentBlockStop st.thinkingBlockIndex])
      else (st, [])
  | none => (st, [])

/-- One non-thought text part: close a signature-less thinking block,
open a text block if none is open, emit text_delta. -/
def emitTextPart (st : StreamState) (p : GPart) : StreamState × List SseEvent :=
  let r :=
    if st.thinkingBlockStarted = true ∧ st.signatureSent = false then
      (({ st with thinkingBlockStarted := false } : StreamState),
       [SseEvent.contentBlockStop st.thinkingBlockIndex])
    else (st, ([] : List SseEvent))
  let st := r.1
  if st.textBlockStarted = false then
    let idx := st.currentBlockIndex + 1
    ({ st with currentBlockIndex := idx, textBlockIndex := idx, textBlockStarted := true },
     r.2 ++ [.contentBlockStart idx .text,
             .contentBlockDelta idx (.textDelta (p.text.getD ""))])
  else
    (st, r.2 ++ [.contentBlockDelta st.textBlockIndex (.textDelta (p.text.getD ""))])

/-- One functionCall part: a fresh tool_use block opened, fed its complete
input as one input_json_delta, and closed. -/
def emitToolCallPart (gen : Nat → String) (st : StreamState) (p : GPart) :
    StreamState × List SseEvent :=
  match p.functionCall with
  | none => (st, [])
  | some fc =>
      let idx := st.currentBlockIndex + 1
      let toolId := jsStrOr fc.id (gen st.genCounter)
      ({ st with currentBlockIndex := idx, genCounter := st.genCounter + 1 },
       [.contentBlockStart idx (.toolUse toolId fc.name),
        .contentBlockDelta idx (.inputJsonDelta (fc.args.getD (.obj []))),
        .contentBlockStop idx])

/-- chunk.web.title || chunk.web.domain. -/
def jsOrOpt (a b : Option String) : Option String :=
  match a with
  | some s => if s = "" then b else some s
  | none => b

/-- Grounding metadata with a non-empty groundingChunks list: close an open
text block, emit a server_tool_use block and a web_search_tool_result
block, both opened-and-closed.  (The source declares webSearchResultsSent
to suppress duplicates but never sets it; the guard is kept as written.) -/
def emitGrounding (gen : Nat → String) (now : Nat) (st : StreamState)
    (cand : GCandidate) : StreamState × List SseEvent :=
  match cand.groundingMetadata with
  | none => (st, [])
  | some g =>
      match g.groundingChunks with
      | none => (st, [])
      | some chunks =>
          if st.webSearchResultsSent = true then (st, [])
          else if chunks.isEmpty then (st, [])
          else
            let r :=
              if st.textBlockStarted = true then
                (({ st with textBlockStarted := false } : StreamState),
                 [SseEvent.contentBlockStop st.textBlockIndex])
              else (st, ([] : List SseEvent))
            let st := r.1
            let searchToolId := gen st.genCounter
            let st := { st with genCounter := st.genCounter + 1 }
            let query := (g.webSearchQueries.getD []).headD ""
            let results := mapWithIndex (fun i w =>
                ({ title := jsOrOpt w.title w.domain, url := w.uri,
                   encrypted_content := w.uri ++ ":" ++ toString i ++ ":" ++ toString now }
                  : WebSearchResult)) 0 (chunks.filterMap (·.web))
            let idx1 := st.currentBlockIndex + 1
            let idx2 := idx1 + 1
            ({ st with currentBlockIndex := idx2 },
             r.2 ++
             [.contentBlockStart idx1 (.serverToolUse searchToolId query),
              .contentBlockStop idx1,
              .contentBlockStart idx2 (.webSearchToolResult searchToolId results),
              .contentBlockStop idx2])

/-- A truthy finishReason: close open blocks, emit message_delta with the
last usage and message_stop.  No flag records that the terminal pair went
out. -/
def emitFinish (st : StreamState) (cand : GCandidate) : StreamState × List SseEvent :=
  match cand.finishReason with
  | none => (st, [])
  | some fr =>
      if fr = "" then (st, [])
      else
        let r1 :=
          if st.thinkingBlockStarted = true then
            (({ st with thinkingBlockStarted := false } : StreamState),
             [SseEvent.contentBlockStop st.thinkingBlockIndex])
          else (st, ([] : List SseEvent))
        let st := r1.1
        let r2 :=
          if st.textBlockStarted = true then
            (({ st with textBlockStarted := false } : StreamState),
             [SseEvent.contentBlockStop st.textBlockIndex])
          else (st, ([] : List SseEvent))
        let st := r2.1
        (st, r1.2 ++ r2.2 ++
          [.messageDelta ((st.lastUsageMetadata.bind (·.promptTokenCount)).getD 0)
            ((st.lastUsageMetadata.bind (·.candidatesTokenCount)).getD 0),
           .messageStop])

/-- One parsed SSE data line: unwrap response||bare, skip when no
candidate, track usage, emit message_start once, then thinking parts,
signature, text parts, tool calls, grounding and finish, in source order. -/
def processDataLine (modelToUse : String) (gen : Nat → String) (now : Nat)
    (st : StreamState) (chunk : UpstreamBody) : StreamState × List SseEvent :=
  let rd := chunk.response.getD chunk.bare
  match rd.candidates with
  | none => (st, [])
  | some [] => (st, [])
  | some (cand :: _) =>
      let parts := cand.partsOf
      let responseId := jsStrOr rd.responseId ("msg_" ++ toString now)
      let st := match rd.usageMetadata with
        | some u => { st with lastUsageMetadata := some u }
        | none => st
      let r0 :=
        if st.messageStartSent = false then
          (({ st with messageStartSent := true } : StreamState),
           [SseEvent.messageStart responseId modelToUse])
        else (st, ([] : List SseEvent))
      let r1 := foldParts emitThinkingPart r0.1
        (parts.filter fun p => jsTruthyStrOpt p.text = true ∧ p.thought = some true)
      let r2 := emitSignature r1.1 parts
      let r3 := foldParts emitTextPart r2.1
        (parts.filter fun p => jsTruthyStrOpt p.text = true ∧ p.thought ≠ some true)
      let r4 := foldParts (emitToolCallPart gen) r3.1
        (parts.filter fun p => p.functionCall.isSome)
      let r5 := emitGrounding gen now r4.1 cand
      let r6 := emitFinish r5.1 cand
      (r6.1, r0.2 ++ r1.2 ++ r2.2 ++ r3.2 ++ r4.2 ++ r5.2 ++ r6.2)

/-- Run the whole stream of parsed data lines. -/
def runStream (modelToUse : String) (gen : Nat → String) (now : Nat) :
    StreamState → List UpstreamBody → StreamState × List SseEvent
  | st, [] => (st, [])
  | st, chunk :: rest =>
      let r1 := processDataLine modelToUse gen now st chunk
      let r2 := runStream modelToUse gen now r1.1 rest
      (r2.1, r1.2 ++ r2.2)

/-- The done-branch after the read loop: close any open blocks, and when
message_start was sent, emit a terminal message_delta/message_stop pair —
unconditionally, there is no record of an earlier terminal pair. -/
def finalizeStream (st : StreamState) : List SseEvent :=
  (if st.thinkingBlockStarted = true then [SseEvent.contentBlockStop st.thinkingBlockIndex]
   else []) ++
  (if st.textBlockStarted = true then [SseEvent.contentBlockStop st.textBlockIndex]
   else []) ++
  (if st.messageStartSent = true then
    [SseEvent.messageDelta ((st.lastUsageMetadata.bind (·.promptTokenCount)).getD 0)
      ((st.lastUsageMetadata.bind (·.candidatesTokenCount)).getD 0),
     SseEvent.messageStop]
   else [])

/-- transformStreamResponse: all events of the data lines followed by the
stream-end finalization. -/
def transformStreamResponse (modelToUse : String) (gen : Nat → String) (now : Nat)
    (chunks : List UpstreamBody) : List SseEvent :=
  let r := runStream modelToUse gen now initialStreamState chunks
  r.2 ++ finalizeStream r.1

/-- Is this event message_stop? -/
def SseEvent.isMessageStop : SseEvent → Bool
  | .messageStop => true
  | _ => false

/-- Is this event message_start? -/
def SseEvent.isMessageStart : SseEvent → Bool
  | .messageStart .. => true
  | _ => false

/-- A normal upstream stream: one data line with text and finishReason. -/
def streamFinishChunk : UpstreamBody :=
  { response := some
      { responseId := some "resp_s1"
        candidates := some
          [{ content := some ⟨some [barePlainPart]⟩, finishReason := some "STOP",
             groundingMetadata := none }]
        usageMetadata := some ⟨some 7, some 5, some 12⟩ }
    bare := { responseId := none, candidates := none, usageMetadata := none } }

/-- C1: message_stop is emitted twice on every normally terminated stream.
The finishReason handler emits message_delta/message_stop, but nothing
records that; the stream-end branch (whose own comment says "Ensure message
is properly closed if not already") fires whenever message_start was sent
and emits a second terminal pair.  Evaluated on a one-line stream carrying
text and finishReason STOP: message_start once, message_stop twice —
violating the at-most-once invariant the spec states. -/
theorem stream_message_stop_emitted_twice :
    ((transformStreamResponse "claude-sonnet-4-5-20250514" genT 0
        [streamFinishChunk]).filter SseEvent.isMessageStop).length = 2 ∧
    ((transformStreamResponse "claude-sonnet-4-5-20250514" genT 0
        [streamFinishChunk]).filter SseEvent.isMessageStart).length = 1 := by
  decide

end CCR
